import Mathlib

/-!
# Flakiness Detective — verification of the clustering and pattern-consensus core

A shallow embedding of the algorithmic core of the `flakiness-detective`
repository: the heuristic field extractor (`analysis/pattern-detection.ts`),
the weighted embedding-context builders (`embedding/embedding-provider.ts`,
`playwright/playwright-embedding.ts`), the density-based clustering entry
point (`clustering/dbscan.ts`) and the orchestrator
(`flakiness-detective.ts`).

JavaScript strings are modelled as Lean `String`/`List Char`, JavaScript
numbers carrying configuration values as `ℚ`/`Int`, `undefined`-able values
as `Option`, and JavaScript truthiness is modelled explicitly (`""`, `0` and
`undefined` are falsy; arrays are always truthy).  The handful of regular
expressions used by the field extractor are embedded as hand-rolled matchers
with JavaScript's leftmost-match, greedy-with-backtracking semantics for the
specific patterns involved.
-/

namespace FlakinessDetective

/-! ## JavaScript string primitives -/

/-- Characters matched by the JavaScript regex class `\s` (ASCII portion
plus NBSP, which covers every string arising here). -/
def isSpaceJS (c : Char) : Bool :=
  c == ' ' || c == '\t' || c == '\n' || c == '\r' || c == '\x0b' || c == '\x0c' || c == '\xa0'

/-- Characters matched by the JavaScript regex class `\d`. -/
def isDigitJS (c : Char) : Bool :=
  '0' ≤ c && c ≤ '9'

/-- Characters matched by the JavaScript regex class `\w` (`[A-Za-z0-9_]`). -/
def isWordJS (c : Char) : Bool :=
  ('a' ≤ c && c ≤ 'z') || ('A' ≤ c && c ≤ 'Z') || isDigitJS c || c == '_'

/-- Characters matched by `[^\s:()]`, the path component class of the
file-location regexes. -/
def isPathChar (c : Char) : Bool :=
  !isSpaceJS c && c != ':' && c != '(' && c != ')'

/-- A quote character, as in the class `['"]`. -/
def isQuote (c : Char) : Bool :=
  c == '\'' || c == '"'

/-- Case-insensitive character comparison (the `i` regex flag). -/
def charEqCI (a b : Char) : Bool :=
  a.toLower == b.toLower

/-- Consume a literal (case-insensitively when `ci` is set), returning the
remaining input on success. -/
def eatLit (ci : Bool) : List Char → List Char → Option (List Char)
  | [], s => some s
  | _ :: _, [] => none
  | p :: ps, c :: cs =>
    if (if ci then charEqCI p c else p == c) then eatLit ci ps cs else none

/-- Consume `\s+` (greedy; every use site is followed by a non-space
requirement, so the maximal run is the unique viable match). -/
def eatSpaces1 (s : List Char) : Option (List Char) :=
  match s with
  | c :: cs => if isSpaceJS c then some (cs.dropWhile isSpaceJS) else none
  | [] => none

/-- Consume `(\d+)` (greedy maximal digit run), returning the captured
digits and the remaining input. -/
def eatDigits1 (s : List Char) : Option (List Char × List Char) :=
  match s with
  | c :: cs =>
    if isDigitJS c then some (c :: cs.takeWhile isDigitJS, cs.dropWhile isDigitJS) else none
  | [] => none

/-- Consume `(\w+)` (greedy maximal word run), returning the captured run
and the remaining input. -/
def eatWord1 (s : List Char) : Option (List Char × List Char) :=
  match s with
  | c :: cs =>
    if isWordJS c then some (c :: cs.takeWhile isWordJS, cs.dropWhile isWordJS) else none
  | [] => none

/-- `String.prototype.match`'s leftmost-match search: try the anchored
matcher at every start position, earliest first. -/
def scanFor (f : List Char → Option β) : List Char → Option β
  | [] => f []
  | c :: cs => (f (c :: cs)).orElse fun _ => scanFor f cs

/-- `parseInt(digits, 10)` on a known digit run. -/
def digitsToNat (ds : List Char) : Nat :=
  ds.foldl (fun n c => n * 10 + (c.toNat - '0'.toNat)) 0

/-- JavaScript `String.prototype.includes` on character lists. -/
def listContainsSub (n : List Char) : List Char → Bool
  | [] => n.isEmpty
  | c :: cs => n.isPrefixOf (c :: cs) || listContainsSub n cs

/-- JavaScript `String.prototype.includes`. -/
def containsStr (needle hay : String) : Bool :=
  listContainsSub needle.data hay.data

/-! ## Anchored matchers for the extractor's regular expressions -/

/-- Anchored matcher for `/Timed out\s+(\d+)ms/i`, returning the digit
capture.  The digit run is maximal and `ms` must follow, exactly as the
backtracking engine resolves `(\d+)ms`. -/
def timedOutAt (s : List Char) : Option (List Char) :=
  (eatLit true "Timed out".data s).bind fun s1 =>
  (eatSpaces1 s1).bind fun s2 =>
  (eatDigits1 s2).bind fun ds =>
  (eatLit true "ms".data ds.2).map fun _ => ds.1

/-- Anchored matcher for `/<lit>:?\s+['"]([^'"]+)['"]/i` (with `lit` being
`Expected` or `Actual`).  The optional `:` is taken greedily; the
without-colon backtracking branch can never succeed when a colon is present
because `\s+` cannot match `:`, so consuming the colon when present is
exact. -/
def quotedAfterLitAt (lit : List Char) (s : List Char) : Option (List Char) :=
  (eatLit true lit s).bind fun s1 =>
  let s2 := match s1 with | ':' :: t => t | _ => s1
  (eatSpaces1 s2).bind fun s3 =>
  match s3 with
  | q :: rest =>
    if isQuote q then
      let v := rest.takeWhile fun c => !isQuote c
      let r := rest.dropWhile fun c => !isQuote c
      match v, r with
      | _ :: _, x :: _ => if isQuote x then some v else none
      | _, _ => none
    else none
  | [] => none

/-- The recognized source extensions, in the regex alternation's order:
`(js|ts|jsx|tsx|vue|py|java|rb)`. -/
def sourceExts : List (List Char) :=
  ["js".data, "ts".data, "jsx".data, "tsx".data, "vue".data, "py".data, "java".data, "rb".data]

/-- Try each extension alternative in order; an alternative succeeds only if
the continuation also succeeds after it (regex backtracking through the
alternation). -/
def tryExts (cont : List Char → Option (List Char)) :
    List (List Char) → List Char → Option (List Char × List Char)
  | [], _ => none
  | e :: es, r2 =>
    (match eatLit true e r2 with
     | some r3 => (cont r3).map fun cap => (e, cap)
     | none => none) <|> tryExts cont es r2

/-- Backtracking for `([^\s:()]+\.(js|…|rb))` followed by `cont`: the `+`
tries the longest prefix of the maximal class run `R` first, then shorter
ones; `T` is the input after `R`.  Returns the group-1 capture (path) and
the continuation's capture. -/
def tryFileAt (cont : List Char → Option (List Char)) (R T : List Char) :
    Nat → Option (List Char × List Char)
  | 0 => none
  | k + 1 =>
    (match R.drop (k + 1) ++ T with
     | '.' :: r2 =>
       (tryExts cont sourceExts r2).map fun r =>
         (R.take (k + 1) ++ '.' :: r.1, r.2)
     | _ => none) <|> tryFileAt cont R T k

/-- Anchored matcher for `at\s+([^\s:()]+\.(js|…|rb))` followed by `cont`
(the rest of one of the two file-location regexes). -/
def atFileAt (cont : List Char → Option (List Char)) (s : List Char) :
    Option (List Char × List Char) :=
  (eatLit true "at".data s).bind fun s1 =>
  (eatSpaces1 s1).bind fun s2 =>
  tryFileAt cont (s2.takeWhile isPathChar) (s2.dropWhile isPathChar)
    (s2.takeWhile isPathChar).length

/-- Continuation `:(\d+)` of `/at\s+([^\s:()]+\.(js|…|rb)):(\d+)/i`. -/
def contColonLine (r : List Char) : Option (List Char) :=
  match r with
  | ':' :: r2 => (eatDigits1 r2).map (·.1)
  | _ => none

/-- Continuation `\s+line\s+(\d+)` of
`/at\s+([^\s:()]+\.(js|…|rb))\s+line\s+(\d+)/i`. -/
def contLineWord (r : List Char) : Option (List Char) :=
  (eatSpaces1 r).bind fun r1 =>
  (eatLit true "line".data r1).bind fun r2 =>
  (eatSpaces1 r2).bind fun r3 =>
  (eatDigits1 r3).map (·.1)

/-- One line's file/line lookup: the `at path:line` regex first, the
`at path line n` regex second, as in the source's loop body. -/
def matchFileLine (line : String) : Option (String × String) :=
  match scanFor (atFileAt contColonLine) line.data with
  | some r => some (⟨r.1⟩, ⟨r.2⟩)
  | none =>
    match scanFor (atFileAt contLineWord) line.data with
    | some r => some (⟨r.1⟩, ⟨r.2⟩)
    | none => none

/-- Anchored matcher for `/expect\(\s*(?:this\.)?(\w+)\s*\)/`: after the
word capture, optional spaces, then `)`. -/
def wordThenClose (s : List Char) : Option (List Char) :=
  (eatWord1 s).bind fun w =>
  match w.2.dropWhile isSpaceJS with
  | ')' :: _ => some w.1
  | _ => none

/-- Anchored matcher for the locator regex
`/expect\(\s*(?:this\.)?(\w+)\s*\)/` (case-sensitive), with the greedy
optional `this.` tried first. -/
def expectLocatorAt (s : List Char) : Option (List Char) :=
  (eatLit false "expect(".data s).bind fun s1 =>
  let s2 := s1.dropWhile isSpaceJS
  (match eatLit false "this.".data s2 with
   | some s3 => wordThenClose s3
   | none => none) <|> wordThenClose s2

/-- Anchored matcher for the assertion-name regex `/\)\s*\.(\w+)\(/`. -/
def matcherAt (s : List Char) : Option (List Char) :=
  match s with
  | ')' :: s1 =>
    (match s1.dropWhile isSpaceJS with
     | '.' :: s2 => (eatWord1 s2).bind fun w =>
        match w.2 with
        | '(' :: _ => some w.1
        | _ => none
     | _ => none)
  | _ => none

/-- Anchored matcher for the quoted-argument regex
`/\.\w+\(\s*['"]([^'"]+)['"]\s*\)/`. -/
def snippetExpectedAt (s : List Char) : Option (List Char) :=
  match s with
  | '.' :: s1 =>
    (eatWord1 s1).bind fun w =>
    match w.2 with
    | '(' :: r1 =>
      (match r1.dropWhile isSpaceJS with
       | q :: r3 =>
         if isQuote q then
           let v := r3.takeWhile fun c => !isQuote c
           let r4 := r3.dropWhile fun c => !isQuote c
           match v, r4 with
           | _ :: _, x :: r5 =>
             if isQuote x then
               match r5.dropWhile isSpaceJS with
               | ')' :: _ => some v
               | _ => none
             else none
           | _, _ => none
         else none
       | [] => none)
    | _ => none
  | _ => none

/-- Anchored matcher for `/timeout:\s*(\d+)/` (case-sensitive). -/
def timeoutOptionAt (s : List Char) : Option (List Char) :=
  (eatLit false "timeout:".data s).bind fun s1 =>
  (eatDigits1 (s1.dropWhile isSpaceJS)).map (·.1)

/-! ## Data model (`types/index.ts`) -/

/-- `TestFailureMetadata`: every field is optional.  The two trailing fields
(`selector`, `testPath`) are the Playwright-specific extras riding on the
interface's open index signature (`playwright-adapter.ts`'s
`PlaywrightFailureMetadata`). -/
@[ext]
structure TestFailureMetadata where
  errorSnippets : Option (List String) := none
  lineNumber : Option String := none
  filePath : Option String := none
  projectName : Option String := none
  suite : Option String := none
  actualValue : Option String := none
  expectedValue : Option String := none
  locator : Option String := none
  matcher : Option String := none
  timeoutMs : Option Nat := none
  selector : Option String := none
  testPath : Option (List String) := none
deriving Repr, DecidableEq, Inhabited

/-- `TestFailure`. -/
structure TestFailure where
  id : String
  testId : String
  testTitle : String
  errorMessage : String
  timestamp : String
  metadata : TestFailureMetadata
deriving Repr, DecidableEq, Inhabited

/-- `EmbeddedFailure`: a failure plus its embedding vector.  JavaScript
numbers in vectors are modelled as rationals. -/
structure EmbeddedFailure extends TestFailure where
  vector : List ℚ
deriving Repr, DecidableEq, Inhabited

/-- `FailureCluster`. -/
structure FailureCluster where
  id : String
  title : String
  count : Nat
  testId : String
  testTitle : String
  timestamp : String
  commonFilePaths : List String
  commonLineNumbers : List String
  commonCodeSnippets : List String
  failurePattern : String
  commonLocators : List String
  commonMatchers : List String
  commonTimeouts : List Nat
  assertionPattern : String
  failureIds : List String
  failureTimestamps : List String
  errorMessages : List String
deriving Repr, DecidableEq, Inhabited

/-- `ClusteringOptions`.  `epsilon` is a JavaScript number (rational model);
`minPoints` and `minClusterSize` are kept as integers so that invalid
(negative) configurations remain expressible. -/
structure ClusteringOptions where
  epsilon : ℚ
  minPoints : Int
  minClusterSize : Int
deriving Repr, DecidableEq

/-- `DEFAULT_CLUSTERING_OPTIONS` from `clustering/dbscan.ts`. -/
def DEFAULT_CLUSTERING_OPTIONS : ClusteringOptions :=
  { epsilon := 3 / 10, minPoints := 2, minClusterSize := 3 }

/-! ## JavaScript truthiness -/

/-- Truthiness of an optional string: `undefined` and `""` are falsy. -/
def strTruthy : Option String → Bool
  | none => false
  | some s => s != ""

/-- Truthiness of an optional number: `undefined` and `0` are falsy. -/
def natTruthy : Option Nat → Bool
  | none => false
  | some n => n != 0

/-- JavaScript `a || b` on optional strings. -/
def orStr (a b : Option String) : Option String :=
  if strTruthy a then a else b

/-- JavaScript `a || b` on optional numbers. -/
def orNat (a b : Option Nat) : Option Nat :=
  if natTruthy a then a else b

/-- JavaScript `a || b` where `a` is an optional array and `b` a present
array: arrays are truthy even when empty. -/
def orList (a : Option (List String)) (b : List String) : Option (List String) :=
  match a with
  | some l => some l
  | none => some b

/-- JavaScript `a || b` on present strings (`first.testTitle || 'Unknown
Test'`). -/
def jsOrString (a b : String) : String :=
  if a == "" then b else a

/-! ## Field extractor (`analysis/pattern-detection.ts`) -/

/-- Result shape of `extractFromErrorMessage`. -/
structure ExtractedData where
  errorSnippets : List String
  lineNumber : Option String
  filePath : Option String
deriving Repr, DecidableEq

/-- `line.trim().startsWith('>')`: only leading whitespace matters. -/
def trimFirstGt (line : String) : Bool :=
  match line.data.dropWhile isSpaceJS with
  | '>' :: _ => true
  | _ => false

/-- JavaScript `split(c)` for a single-character separator, on character
lists (`''.split('\n')` is `['']`). -/
def splitOnChar (c : Char) : List Char → List (List Char)
  | [] => [[]]
  | x :: xs =>
    let r := splitOnChar c xs
    if x == c then [] :: r
    else
      match r with
      | h :: t => (x :: h) :: t
      | [] => [[x]]

/-- `message.split('\n')`. -/
def splitLines (message : String) : List String :=
  (splitOnChar '\n' message.data).map fun l => ⟨l⟩

/-- `extractFromErrorMessage`: split into lines, collect `>`-led snippet
lines, and scan the lines for the first file/line match. -/
def extractFromErrorMessage (message : String) : ExtractedData :=
  let lines := splitLines message
  let errorSnippets := lines.filter trimFirstGt
  match lines.findSome? matchFileLine with
  | some r => { errorSnippets, lineNumber := some r.2, filePath := some r.1 }
  | none => { errorSnippets, lineNumber := none, filePath := none }

/-- Result shape of `extractFrameworkDetails`. -/
structure FrameworkData where
  locator : Option String := none
  matcher : Option String := none
  actualValue : Option String := none
  expectedValue : Option String := none
  timeoutMs : Option Nat := none
deriving Repr, DecidableEq

/-- `/Timed out\s+(\d+)ms/i` over the whole message, as a number. -/
def msgTimeout (message : String) : Option Nat :=
  (scanFor timedOutAt message.data).map digitsToNat

/-- `/Expected:?\s+['"]([^'"]+)['"]/i` over the whole message. -/
def msgExpected (message : String) : Option String :=
  (scanFor (quotedAfterLitAt "Expected".data) message.data).map fun v => (⟨v⟩ : String)

/-- `/Actual:?\s+['"]([^'"]+)['"]/i` over the whole message. -/
def msgActual (message : String) : Option String :=
  (scanFor (quotedAfterLitAt "Actual".data) message.data).map fun v => (⟨v⟩ : String)

/-- `snippet.includes('expect(') && snippet.includes(').')`. -/
def isAssertionSnippet (snippet : String) : Bool :=
  containsStr "expect(" snippet && containsStr ")." snippet

/-- `a` if present, else `b` (a matched regex capture overwriting a default;
captures are nonempty by construction, so no truthiness subtlety arises). -/
def orOpt (a b : Option α) : Option α :=
  match a with
  | some v => some v
  | none => b

/-- The locator capture of one snippet. -/
def snipLocator (s : String) : Option String :=
  (scanFor expectLocatorAt s.data).map fun w => (⟨w⟩ : String)

/-- The assertion-name capture of one snippet. -/
def snipMatcher (s : String) : Option String :=
  (scanFor matcherAt s.data).map fun w => (⟨w⟩ : String)

/-- The quoted-argument capture of one snippet. -/
def snipExpected (s : String) : Option String :=
  (scanFor snippetExpectedAt s.data).map fun v => (⟨v⟩ : String)

/-- The `timeout:` option capture of one snippet, as a number. -/
def snipTimeout (s : String) : Option Nat :=
  (scanFor timeoutOptionAt s.data).map digitsToNat

/-- One iteration of the snippet loop in `extractFrameworkDetails`: each
sub-regex that matches overwrites the corresponding accumulator field. -/
def snippetStep (acc : FrameworkData) (snippet : String) : FrameworkData :=
  if isAssertionSnippet snippet then
    { acc with
      locator := orOpt (snipLocator snippet) acc.locator
      matcher := orOpt (snipMatcher snippet) acc.matcher
      expectedValue := orOpt (snipExpected snippet) acc.expectedValue
      timeoutMs := orOpt (snipTimeout snippet) acc.timeoutMs }
  else acc

/-- `extractFrameworkDetails`: whole-message matches first, then the
snippet loop (whose matches overwrite the message-derived expected value
and timeout). -/
def extractFrameworkDetails (message : String) (snippets : List String) : FrameworkData :=
  snippets.foldl snippetStep
    { locator := none
      matcher := none
      actualValue := msgActual message
      expectedValue := msgExpected message
      timeoutMs := msgTimeout message }

/-- The capture the snippet loop leaves in a field: the last
assertion-shaped snippet whose sub-regex matches (later matches overwrite
earlier ones). -/
def lastAssertionCapture (matchFn : String → Option β) (snips : List String) : Option β :=
  snips.reverse.findSome? fun s => if isAssertionSnippet s then matchFn s else none

/-- First enrichment block of `extractPatterns` (error context), guarded by
`!metadata.errorSnippets || !metadata.lineNumber || !metadata.filePath`. -/
def enrichLocation (message : String) (m : TestFailureMetadata) : TestFailureMetadata :=
  if m.errorSnippets.isSome && strTruthy m.lineNumber && strTruthy m.filePath then m
  else
    let e := extractFromErrorMessage message
    { m with
      errorSnippets := orList m.errorSnippets e.errorSnippets
      lineNumber := orStr m.lineNumber e.lineNumber
      filePath := orStr m.filePath e.filePath }

/-- Second enrichment block of `extractPatterns` (framework details),
guarded by `!locator || !matcher || !actualValue || !expectedValue`. -/
def enrichFramework (message : String) (m : TestFailureMetadata) : TestFailureMetadata :=
  if strTruthy m.locator && strTruthy m.matcher && strTruthy m.actualValue &&
      strTruthy m.expectedValue then m
  else
    let fd := extractFrameworkDetails message (m.errorSnippets.getD [])
    { m with
      locator := orStr m.locator fd.locator
      matcher := orStr m.matcher fd.matcher
      actualValue := orStr m.actualValue fd.actualValue
      expectedValue := orStr m.expectedValue fd.expectedValue
      timeoutMs := orNat m.timeoutMs fd.timeoutMs }

/-- `extractPatterns`: copy the metadata, run both enrichment blocks, and
return the failure with the enriched copy. -/
def extractPatterns (failure : TestFailure) : TestFailure :=
  { failure with
    metadata := enrichFramework failure.errorMessage
      (enrichLocation failure.errorMessage failure.metadata) }

/-! ## Context builders (`embedding-provider.ts`, `playwright-embedding.ts`) -/

/-- JavaScript `substring(0, n)`. -/
def takeChars (n : Nat) (s : String) : String :=
  ⟨s.data.take n⟩

/-- The ordered fragment array built by `createRichEmbeddingContext`
(absent data yields `''`, which the final `filter(Boolean)` removes). -/
def richContextElements (title errorMessage : String) (metadata : TestFailureMetadata) :
    List String :=
  [ "Test: " ++ title,
    if strTruthy metadata.projectName then "Project: " ++ metadata.projectName.getD "" else "",
    if strTruthy metadata.suite then "Suite: " ++ metadata.suite.getD "" else "",
    if strTruthy metadata.filePath && strTruthy metadata.lineNumber then
      "Location: " ++ metadata.filePath.getD "" ++ ":" ++ metadata.lineNumber.getD ""
    else "",
    if strTruthy metadata.locator then "Locator: " ++ metadata.locator.getD "" else "",
    if strTruthy metadata.matcher then "Matcher: " ++ metadata.matcher.getD "" else "",
    if strTruthy metadata.actualValue then
      "Actual: \"" ++ metadata.actualValue.getD "" ++ "\"" else "",
    if strTruthy metadata.expectedValue then
      "Expected: \"" ++ metadata.expectedValue.getD "" ++ "\"" else "",
    if natTruthy metadata.timeoutMs then
      "Timeout: " ++ toString (metadata.timeoutMs.getD 0) ++ "ms" else "",
    match metadata.errorSnippets with
    | some (s :: ss) => "Code:\n" ++ String.intercalate "\n" (s :: ss)
    | _ => "",
    "Error: " ++ errorMessage ]

/-- `createRichEmbeddingContext`. -/
def createRichEmbeddingContext (title errorMessage : String)
    (metadata : TestFailureMetadata) : String :=
  String.intercalate "\n\n" ((richContextElements title errorMessage metadata).filter (· != ""))

/-- A `{ weight: number }` sub-object of the Playwright embedding config. -/
structure WeightOpt where
  weight : ℚ
deriving Repr, DecidableEq

/-- `PlaywrightEmbeddingConfig` (the fields the context builder reads). -/
structure PlaywrightEmbeddingConfig where
  dimensions : Option Nat := none
  modelName : Option String := none
  selectors : Option WeightOpt := none
  timeouts : Option WeightOpt := none
  assertions : Option WeightOpt := none
deriving Repr, DecidableEq

/-- `PLAYWRIGHT_EMBEDDING_DEFAULTS`. -/
def PLAYWRIGHT_EMBEDDING_DEFAULTS : PlaywrightEmbeddingConfig :=
  { dimensions := some 768
    modelName := some "default"
    selectors := some ⟨2⟩
    timeouts := some ⟨3 / 2⟩
    assertions := some ⟨9 / 5⟩ }

/-- JavaScript `Math.round` on a rational: nearest integer, ties toward
positive infinity. -/
def roundJS (q : ℚ) : Int :=
  ⌊q + 1 / 2⌋

/-- `config.<feature>?.weight || 1.0`: a missing sub-object or a weight of
`0` falls back to `1.0`. -/
def effectiveWeight (w : Option WeightOpt) : ℚ :=
  match w with
  | some o => if o.weight == 0 then 1 else o.weight
  | none => 1

/-- `Math.max(1, Math.round(weight))`, as a repetition count. -/
def repeatCount (weight : ℚ) : Nat :=
  (max 1 (roundJS weight)).toNat

/-- The ordered fragment array built by `createPlaywrightEmbeddingContext`
before the final `filter(Boolean).join('\n\n')`. -/
def playwrightContextElements (failure : TestFailure)
    (config : PlaywrightEmbeddingConfig) : List String :=
  let metadata := failure.metadata
  ["Test: " ++ failure.testTitle]
  ++ (if strTruthy metadata.projectName then
        ["Project: " ++ metadata.projectName.getD ""] else [])
  ++ (match metadata.testPath with
      | some tp => ["Suite: " ++ String.intercalate " > " tp]
      | none => [])
  ++ (if strTruthy metadata.filePath && strTruthy metadata.lineNumber then
        ["Location: " ++ metadata.filePath.getD "" ++ ":" ++ metadata.lineNumber.getD ""]
      else [])
  ++ (if strTruthy metadata.selector || strTruthy metadata.locator then
        List.replicate (repeatCount (effectiveWeight config.selectors))
          ("Selector: " ++ (orStr metadata.selector metadata.locator).getD "")
      else [])
  ++ (if strTruthy metadata.matcher then
        List.replicate (repeatCount (effectiveWeight config.assertions))
          ("Matcher: " ++ metadata.matcher.getD "")
      else [])
  ++ (if strTruthy metadata.expectedValue then
        ["Expected: \"" ++ metadata.expectedValue.getD "" ++ "\""] else [])
  ++ (if strTruthy metadata.actualValue then
        ["Actual: \"" ++ metadata.actualValue.getD "" ++ "\""] else [])
  ++ (if natTruthy metadata.timeoutMs then
        List.replicate (repeatCount (effectiveWeight config.timeouts))
          ("Timeout: " ++ toString (metadata.timeoutMs.getD 0) ++ "ms")
      else [])
  ++ (match metadata.errorSnippets with
      | some (s :: ss) => ["Code:\n" ++ String.intercalate "\n" (s :: ss)]
      | _ => [])
  ++ ["Error: " ++ failure.errorMessage]

/-- `createPlaywrightEmbeddingContext`. -/
def createPlaywrightEmbeddingContext (failure : TestFailure)
    (config : PlaywrightEmbeddingConfig := PLAYWRIGHT_EMBEDDING_DEFAULTS) : String :=
  String.intercalate "\n\n" ((playwrightContextElements failure config).filter (· != ""))

/-- Whether a context fragment carries a given label: the label's characters
are an initial segment of the fragment's characters. -/
def hasLabel (label s : String) : Bool :=
  List.isPrefixOf label.data s.data

/-- Modelled from the spec: the repetition count the spec states for a
weighted feature, `max(1, round(weight))`, with a missing weight profile
entry defaulting to `1.0`. Compared against the code-side
`repeatCount (effectiveWeight w)`. -/
def specRepeatCount (w : Option WeightOpt) : Nat :=
  (max 1 (roundJS ((w.map WeightOpt.weight).getD 1))).toNat

/-! ## `findCommonElements` and JavaScript object key ordering -/

/-- One decimal digit as a character. -/
def digitChar (d : Nat) : Char :=
  match d with
  | 0 => '0' | 1 => '1' | 2 => '2' | 3 => '3' | 4 => '4'
  | 5 => '5' | 6 => '6' | 7 => '7' | 8 => '8' | _ => '9'

/-- Fuel-bounded most-significant-first decimal digits of `n`, prepended to
`acc` (`fuel > n` guarantees completion). -/
def natToCharsGo : Nat → Nat → List Char → List Char
  | 0, _, acc => acc
  | fuel + 1, n, acc =>
    if n < 10 then digitChar n :: acc
    else natToCharsGo fuel (n / 10) (digitChar (n % 10) :: acc)

/-- JavaScript `String(element)` for an integral number: its decimal form.
(`String` on a string is the identity; the two key functions used by
`findCommonElements`'s call sites are `id` and this one.) -/
def natToKey (n : Nat) : String :=
  ⟨natToCharsGo (n + 1) n []⟩

/-- One step of the counting loop: increment an existing entry for the key
or append a fresh `{ count: 1, value: element }` entry.  The stored value
stays the first element seen with that key. -/
def bump (toKey : α → String) (acc : List (String × Nat × α)) (a : α) :
    List (String × Nat × α) :=
  if acc.any fun e => e.1 == toKey a then
    acc.map fun e => if e.1 == toKey a then (e.1, e.2.1 + 1, e.2.2) else e
  else acc ++ [(toKey a, 1, a)]

/-- The `counts` record of `findCommonElements`, entries in insertion
order. -/
def buildCounts (toKey : α → String) (l : List α) : List (String × Nat × α) :=
  l.foldl (bump toKey) []

/-- The numeric reading of a pure digit string (`none` otherwise). -/
def keyToNat? (s : String) : Option Nat :=
  if s.data ≠ [] ∧ s.data.all isDigitJS then some (digitsToNat s.data) else none

/-- A canonical array-index property key: the decimal form (no leading
zero) of an integer in `[0, 2^32 − 2]`.  JavaScript orders such keys
numerically before all other own string keys. -/
def isArrayIndexKey (s : String) : Bool :=
  match keyToNat? s with
  | some n =>
    (match s.data with
     | c :: cs => c != '0' || cs.isEmpty
     | [] => false) && n ≤ 2 ^ 32 - 2
  | none => false

/-- Numeric value of an array-index key (0 default elsewhere). -/
def keyNat (e : String × Nat × α) : Nat :=
  (keyToNat? e.1).getD 0

/-- Ascending insertion by numeric key (keys are distinct in a `counts`
record, so stability is immaterial). -/
def insertByKeyNat (e : String × Nat × α) : List (String × Nat × α) → List (String × Nat × α)
  | [] => [e]
  | x :: xs => if keyNat x ≤ keyNat e then x :: insertByKeyNat e xs else e :: x :: xs

/-- Insertion sort, ascending by numeric key. -/
def sortByKeyNat (l : List (String × Nat × α)) : List (String × Nat × α) :=
  l.foldr insertByKeyNat []

/-- `Object.values(counts)`: array-index keys first in ascending numeric
order, then the remaining keys in insertion order. -/
def jsObjectValues (entries : List (String × Nat × α)) : List (String × Nat × α) :=
  sortByKeyNat (entries.filter fun e => isArrayIndexKey e.1)
    ++ entries.filter fun e => !isArrayIndexKey e.1

/-- `findCommonElements`, generic over the element type via the
`String(element)` key function. -/
def findCommonElements (toKey : α → String) (elements : List α) (thresholdCount : ℚ) :
    List α :=
  ((jsObjectValues (buildCounts toKey elements)).filter
      fun e => thresholdCount ≤ (e.2.1 : ℚ)).map
    fun e => e.2.2

/-- First occurrences by key: keep the first element of each distinct key
not already in `seen`, in encounter order. -/
def firstSeenGo (toKey : α → String) (seen : List String) : List α → List α
  | [] => []
  | a :: l =>
    if seen.contains (toKey a) then firstSeenGo toKey seen l
    else a :: firstSeenGo toKey (toKey a :: seen) l

/-- The first element of each distinct key, in first-seen order — the
reference order for a consensus list. -/
def firstSeenByKey (toKey : α → String) (l : List α) : List α :=
  firstSeenGo toKey [] l

/-- The number of elements of `l` whose key is `k`. -/
def keyCountP (toKey : α → String) (k : String) (l : List α) : Nat :=
  l.countP fun x => toKey x == k

/-- Ascending insertion of a value by its numeric key. -/
def insertValByKeyNat (toKey : α → String) (v : α) : List α → List α
  | [] => [v]
  | x :: xs =>
    if (keyToNat? (toKey x)).getD 0 ≤ (keyToNat? (toKey v)).getD 0 then
      x :: insertValByKeyNat toKey v xs
    else v :: x :: xs

/-- Insertion sort of values, ascending by numeric key. -/
def sortValByKeyNat (toKey : α → String) (l : List α) : List α :=
  l.foldr (insertValByKeyNat toKey) []

/-! ## Density-based clustering -/

/-- Squared Euclidean distance (vectors in one run share a length). -/
def sqDist (a b : List ℚ) : ℚ :=
  ((a.zip b).map fun p => (p.1 - p.2) ^ 2).sum

/-- Modelled from the spec: the neighbor query of the external
`density-clustering` DBSCAN (§4.3, brute force): all indices whose distance
to `i` is `≤ epsilon` (none when `epsilon < 0`, since a Euclidean distance
is nonnegative). -/
def neighborsOf (vectors : List (List ℚ)) (eps : ℚ) (i : Nat) : List Nat :=
  if eps < 0 then []
  else (List.range vectors.length).filter
    fun j => decide (sqDist (vectors.getD i []) (vectors.getD j []) ≤ eps ^ 2)

/-- Modelled from the spec: breadth-first cluster expansion over a
visited set (§4.3, §9): pop the queue, skip already-collected or
already-assigned points, collect the point, and enqueue the neighborhood of
every collected core point.  `fuel` bounds the traversal. -/
def expandGo (nbrs : Nat → List Nat) (core : Nat → Bool) (banned : List Nat) :
    Nat → List Nat → List Nat → List Nat
  | 0, _, members => members
  | _ + 1, [], members => members
  | fuel + 1, j :: queue, members =>
    if members.contains j || banned.contains j then
      expandGo nbrs core banned fuel queue members
    else
      expandGo nbrs core banned fuel (if core j then queue ++ nbrs j else queue)
        (members ++ [j])

/-- Modelled from the spec: the external `density-clustering` DBSCAN run
(§4.3): scan indices in order; each unassigned core point seeds a new
cluster collecting every point reachable through core points; points
reachable from no core point join no cluster.  Returns the clusters as
index lists. -/
def dbscanRun (vectors : List (List ℚ)) (eps : ℚ) (minPts : Int) : List (List Nat) :=
  let nbrs := neighborsOf vectors eps
  let core := fun i => decide (((nbrs i).length : Int) ≥ minPts)
  let fuel := vectors.length * vectors.length + vectors.length + 1
  ((List.range vectors.length).foldl
    (fun st i =>
      if st.1.contains i || !core i then st
      else
        let c := expandGo nbrs core st.1 fuel (nbrs i) [i]
        (st.1 ++ c, st.2 ++ [c]))
    ([], [])).2

/-- Modelled from the spec: the run's ambient clock (`Date.now()` and
`new Date().toISOString()` in `clustering/dbscan.ts`); no claim depends on
real time, so the clock is a fixed instant. -/
def dateNowMs : Nat := 0

/-- Modelled from the spec: `new Date().toISOString()` at the fixed
instant. -/
def dateNowIso : String := ""

/-- `filter(Boolean)` over optional strings: drop `undefined` and `''`. -/
def filterBoolStr (o : Option String) : Option String :=
  match o with
  | some s => if s == "" then none else some s
  | none => none

/-- The cluster object built for one DBSCAN index group inside
`clusterFailures` (the body of the `.map` callback, minus the size
check). -/
def buildCluster (embeddedFailures : List EmbeddedFailure) (timestampStr : String)
    (idxs : List Nat) (clusterId : Nat) : FailureCluster :=
  let failures := idxs.map fun idx => embeddedFailures.getD idx default
  let first := failures.headD default
  let count := failures.length
  let failureIds := failures.map (·.id)
  let failureTimestamps := failures.map fun f => jsOrString f.timestamp dateNowIso
  let errorMessages := failures.map fun f => takeChars 200 f.errorMessage
  let filePaths := failures.filterMap fun f => filterBoolStr f.metadata.filePath
  let lineNumbers := failures.filterMap fun f => filterBoolStr f.metadata.lineNumber
  let allSnippets := failures.flatMap fun f => f.metadata.errorSnippets.getD []
  let locators := failures.filterMap fun f => filterBoolStr f.metadata.locator
  let matchers := failures.filterMap fun f => filterBoolStr f.metadata.matcher
  let timeouts := failures.filterMap fun f =>
    match f.metadata.timeoutMs with
    | some t => if 0 < t then some t else none
    | none => none
  let commonFilePaths := findCommonElements id filePaths ((count : ℚ) * (1 / 2))
  let commonLineNumbers := findCommonElements id lineNumbers ((count : ℚ) * (1 / 2))
  let commonCodeSnippets := findCommonElements id allSnippets ((count : ℚ) * (1 / 2))
  let commonLocators := findCommonElements id locators ((count : ℚ) * (1 / 2))
  let commonMatchers := findCommonElements id matchers ((count : ℚ) * (1 / 2))
  let commonTimeouts :=
    findCommonElements natToKey timeouts ((count : ℚ) * (1 / 2))
  let failurePattern :=
    if commonFilePaths.length > 0 && commonLineNumbers.length > 0 then
      "Common failure at " ++ commonFilePaths.headD "" ++ ":" ++ commonLineNumbers.headD ""
    else if commonCodeSnippets.length > 0 then
      "Common code pattern: " ++ takeChars 100 (commonCodeSnippets.headD "") ++ "..."
    else "Similar test failures"
  let assertionPattern :=
    if commonLocators.length > 0 && commonMatchers.length > 0 then
      commonMatchers.headD "" ++ " on " ++ commonLocators.headD ""
        ++ (if commonTimeouts.length > 0 then
              " (" ++ toString (commonTimeouts.headD 0) ++ "ms timeout)"
            else "")
    else if commonLocators.length > 0 then "Common locator: " ++ commonLocators.headD ""
    else if commonMatchers.length > 0 then "Common matcher: " ++ commonMatchers.headD ""
    else ""
  { id := "cluster-" ++ toString clusterId ++ "-" ++ toString dateNowMs
    title := jsOrString first.testTitle "Unknown Test"
    count
    testId := jsOrString first.testId ""
    testTitle := jsOrString first.testTitle "Unknown Test"
    timestamp := timestampStr
    commonFilePaths
    commonLineNumbers
    commonCodeSnippets
    failurePattern
    commonLocators
    commonMatchers
    commonTimeouts
    assertionPattern
    failureIds
    failureTimestamps
    errorMessages }

/-- Stable insertion by descending count (ties keep earlier elements first,
matching JavaScript's stable `sort((a, b) => b.count - a.count)`). -/
def insertByCountDesc (c : FailureCluster) :
    List FailureCluster → List FailureCluster
  | [] => [c]
  | x :: xs => if x.count > c.count then x :: insertByCountDesc c xs else c :: x :: xs

/-- Stable sort by descending count. -/
def sortByCountDesc (l : List FailureCluster) : List FailureCluster :=
  l.foldr insertByCountDesc []

/-- `clusterFailures` (`clustering/dbscan.ts`): early-return on empty
input, run DBSCAN, drop groups smaller than `minClusterSize`, build a
cluster per surviving group, and sort by descending count. -/
def clusterFailures (embeddedFailures : List EmbeddedFailure)
    (options : ClusteringOptions := DEFAULT_CLUSTERING_OPTIONS) : List FailureCluster :=
  if embeddedFailures.length == 0 then []
  else
    let vectors := embeddedFailures.map (·.vector)
    let clusterIndices := dbscanRun vectors options.epsilon options.minPoints
    let timestampStr := dateNowIso
    sortByCountDesc (clusterIndices.enum.filterMap fun gi =>
      if (gi.2.length : Int) < options.minClusterSize then none
      else some (buildCluster embeddedFailures timestampStr gi.2 gi.1))

/-! ## Orchestrator (`flakiness-detective.ts`) -/

/-- The time-window sub-config. -/
structure TimeWindowConfig where
  days : ℚ
deriving Repr, DecidableEq

/-- `FlakinessDetectiveConfig`. -/
structure FlakinessDetectiveConfig where
  clustering : ClusteringOptions
  timeWindow : TimeWindowConfig
deriving Repr, DecidableEq

/-- `DEFAULT_CONFIG` of `flakiness-detective.ts`. -/
def DEFAULT_CONFIG : FlakinessDetectiveConfig :=
  { clustering := DEFAULT_CLUSTERING_OPTIONS, timeWindow := ⟨7⟩ }

/-- One step of `FlakinessDetective.detect`, recorded in order.  `fetch`,
`embedBatch` and `persist` are the I/O steps (adapter calls); the others
are the pure computation stages. -/
inductive PipelineStep where
  | fetch (days : ℚ)
  | extract (failureCount : Nat)
  | buildContexts (contexts : List String)
  | embedBatch (contexts : List String)
  | cluster (embeddedCount : Nat)
  | persist (clusters : List FailureCluster)
deriving Repr, DecidableEq

/-- `FlakinessDetective.detect`, with the adapter's suspension points made
explicit: `fetched` is what `dataAdapter.fetchFailures` resolves to and
`embedFn` is `embeddingProvider.embedBatch`.  Returns the cluster list and
the trace of executed steps. -/
def detect (fetched : List TestFailure) (embedFn : List String → List (List ℚ))
    (config : FlakinessDetectiveConfig) : List FailureCluster × List PipelineStep :=
  let trace0 := [PipelineStep.fetch config.timeWindow.days]
  if fetched.length == 0 then ([], trace0)
  else
    let enhancedFailures := fetched.map extractPatterns
    let contexts := enhancedFailures.map fun f =>
      createRichEmbeddingContext f.testTitle f.errorMessage f.metadata
    let embeddings := embedFn contexts
    let embeddedFailures := enhancedFailures.enum.map fun p =>
      { p.2 with vector := embeddings.getD p.1 [] : EmbeddedFailure }
    let clusters := clusterFailures embeddedFailures config.clustering
    (clusters,
      trace0 ++ [PipelineStep.extract fetched.length,
        PipelineStep.buildContexts contexts,
        PipelineStep.embedBatch contexts,
        PipelineStep.cluster embeddedFailures.length,
        PipelineStep.persist clusters])

/-! ## Object-identity model for `extractPatterns` (mutation analysis)

The heap holds every reachable metadata object; addresses are list
positions.  `extractPatterns` first evaluates `{ ...failure.metadata }`,
allocating a copy at a fresh address, and every subsequent property
assignment targets that copy. -/

/-- `extractPatterns` over an explicit heap of metadata objects:
returns the final heap and the address of the enriched copy. -/
def extractPatternsHeap (heap : List TestFailureMetadata) (failureAddr : Nat)
    (errorMessage : String) : List TestFailureMetadata × Nat :=
  let addr := heap.length
  let heap1 := heap ++ [heap.getD failureAddr default]
  let heap2 := heap1.set addr (enrichLocation errorMessage (heap1.getD addr default))
  let heap3 := heap2.set addr (enrichFramework errorMessage (heap2.getD addr default))
  (heap3, addr)

/-! ## Concrete fixtures used by witnesses and counterexamples -/

/-- An invalid configuration (non-positive epsilon, negative minPoints). -/
def configC4 : FlakinessDetectiveConfig :=
  { clustering := { epsilon := -1, minPoints := -5, minClusterSize := 3 }
    timeWindow := ⟨7⟩ }

/-- A single fetched failure. -/
def failureC4 : TestFailure :=
  { id := "failure-1", testId := "test-1", testTitle := "T", errorMessage := "E"
    timestamp := "ts", metadata := {} }

/-- A constant embedding provider. -/
def embedC4 : List String → List (List ℚ) :=
  fun contexts => contexts.map fun _ => [0]

/-- A failure whose message carries `Expected: "foo"` while its snippet's
assertion call carries the quoted argument `"bar"`. -/
def failureC2 : TestFailure :=
  { id := "f", testId := "t", testTitle := "T", timestamp := "ts"
    errorMessage := "Expected: \"foo\"\n> expect(element).toBe(\"bar\")"
    metadata := {} }

/-- A two-object heap. -/
def heapC10 : List TestFailureMetadata :=
  [{ filePath := some "existing-path.ts", errorSnippets := some ["> expect(a).toBe('x')"] }, {}]

/-- A failure with an input-supplied locator, whose snippet would otherwise
yield a different one. -/
def failureC2In : TestFailure :=
  { id := "f2", testId := "t2", testTitle := "T2", timestamp := "ts"
    errorMessage := "Error\n> expect(element).toBeVisible()"
    metadata := { locator := some "existingLocator" } }

/-- Three co-located failures; the first repeats one snippet twice. -/
def efsC1 : List EmbeddedFailure :=
  [{ id := "1", testId := "t1", testTitle := "T1", errorMessage := "E1", timestamp := "ts"
     metadata := { errorSnippets := some ["s", "s"] }, vector := [0] },
   { id := "2", testId := "t2", testTitle := "T2", errorMessage := "E2", timestamp := "ts"
     metadata := {}, vector := [0] },
   { id := "3", testId := "t3", testTitle := "T3", errorMessage := "E3", timestamp := "ts"
     metadata := {}, vector := [0] }]

/-- Clustering options grouping all of `efsC1` into one cluster. -/
def optsC1 : ClusteringOptions :=
  { epsilon := 1, minPoints := 1, minClusterSize := 3 }

/-- Four co-located failures whose line numbers first appear in the order
`"10"`, `"5"`. -/
def efsC3 : List EmbeddedFailure :=
  [{ id := "1", testId := "t1", testTitle := "T1", errorMessage := "E1", timestamp := "ts"
     metadata := { lineNumber := some "10" }, vector := [0] },
   { id := "2", testId := "t2", testTitle := "T2", errorMessage := "E2", timestamp := "ts"
     metadata := { lineNumber := some "10" }, vector := [0] },
   { id := "3", testId := "t3", testTitle := "T3", errorMessage := "E3", timestamp := "ts"
     metadata := { lineNumber := some "5" }, vector := [0] },
   { id := "4", testId := "t4", testTitle := "T4", errorMessage := "E4", timestamp := "ts"
     metadata := { lineNumber := some "5" }, vector := [0] }]

/-- Clustering options grouping all of `efsC3` into one cluster. -/
def optsC3 : ClusteringOptions :=
  { epsilon := 1, minPoints := 1, minClusterSize := 3 }

/-- Three co-located failures plus one outlier. -/
def efsC6 : List EmbeddedFailure :=
  [{ id := "1", testId := "t1", testTitle := "T1", errorMessage := "E1", timestamp := "ts"
     metadata := {}, vector := [0] },
   { id := "2", testId := "t2", testTitle := "T2", errorMessage := "E2", timestamp := "ts"
     metadata := {}, vector := [0] },
   { id := "3", testId := "t3", testTitle := "T3", errorMessage := "E3", timestamp := "ts"
     metadata := {}, vector := [0] },
   { id := "4", testId := "t4", testTitle := "T4", errorMessage := "E4", timestamp := "ts"
     metadata := {}, vector := [100] }]

/-- Clustering options making the `efsC6` outlier noise. -/
def optsC6 : ClusteringOptions :=
  { epsilon := 1, minPoints := 2, minClusterSize := 3 }

/-! ## Supporting lemmas -/

section Lemmas

attribute [local semireducible] Rat.add Rat.mul Rat.sub Rat.inv

theorem orStr_absorb (a b : Option String) : orStr (orStr a b) b = orStr a b := by
  by_cases ha : strTruthy a <;> simp [orStr, ha]

theorem orNat_absorb (a b : Option Nat) : orNat (orNat a b) b = orNat a b := by
  by_cases ha : natTruthy a <;> simp [orNat, ha]

theorem orList_absorb (a : Option (List String)) (b : List String) :
    orList (orList a b) b = orList a b := by
  cases a <;> rfl

theorem orStr_of_truthy {a : Option String} (b : Option String) (h : strTruthy a = true) :
    orStr a b = a := by
  simp [orStr, h]

theorem orNat_of_truthy {a : Option Nat} (b : Option Nat) (h : natTruthy a = true) :
    orNat a b = a := by
  simp [orNat, h]

theorem orList_of_isSome {a : Option (List String)} (b : List String) (h : a.isSome = true) :
    orList a b = a := by
  cases a
  · simp at h
  · rfl

theorem enrichFramework_errorSnippets (msg : String) (m : TestFailureMetadata) :
    (enrichFramework msg m).errorSnippets = m.errorSnippets := by
  rw [enrichFramework]; split <;> rfl

theorem enrichFramework_lineNumber (msg : String) (m : TestFailureMetadata) :
    (enrichFramework msg m).lineNumber = m.lineNumber := by
  rw [enrichFramework]; split <;> rfl

theorem enrichFramework_filePath (msg : String) (m : TestFailureMetadata) :
    (enrichFramework msg m).filePath = m.filePath := by
  rw [enrichFramework]; split <;> rfl

theorem enrichLocation_locator (msg : String) (m : TestFailureMetadata) :
    (enrichLocation msg m).locator = m.locator := by
  rw [enrichLocation]; split <;> rfl

theorem enrichLocation_matcher (msg : String) (m : TestFailureMetadata) :
    (enrichLocation msg m).matcher = m.matcher := by
  rw [enrichLocation]; split <;> rfl

theorem enrichLocation_actualValue (msg : String) (m : TestFailureMetadata) :
    (enrichLocation msg m).actualValue = m.actualValue := by
  rw [enrichLocation]; split <;> rfl

theorem enrichLocation_expectedValue (msg : String) (m : TestFailureMetadata) :
    (enrichLocation msg m).expectedValue = m.expectedValue := by
  rw [enrichLocation]; split <;> rfl

theorem enrichLocation_timeoutMs (msg : String) (m : TestFailureMetadata) :
    (enrichLocation msg m).timeoutMs = m.timeoutMs := by
  rw [enrichLocation]; split <;> rfl

theorem enrichLocation_stable (msg : String) (m m' : TestFailureMetadata)
    (hes : m'.errorSnippets = (enrichLocation msg m).errorSnippets)
    (hln : m'.lineNumber = (enrichLocation msg m).lineNumber)
    (hfp : m'.filePath = (enrichLocation msg m).filePath) :
    enrichLocation msg m' = m' := by
  by_cases hg :
      (m.errorSnippets.isSome && strTruthy m.lineNumber && strTruthy m.filePath) = true
  · have he : enrichLocation msg m = m := by rw [enrichLocation, if_pos hg]
    rw [he] at hes hln hfp
    rw [enrichLocation, if_pos (by rw [hes, hln, hfp]; exact hg)]
  · have he : enrichLocation msg m =
        { m with
          errorSnippets := orList m.errorSnippets (extractFromErrorMessage msg).errorSnippets
          lineNumber := orStr m.lineNumber (extractFromErrorMessage msg).lineNumber
          filePath := orStr m.filePath (extractFromErrorMessage msg).filePath } := by
      rw [enrichLocation, if_neg hg]
    rw [he] at hes hln hfp
    by_cases hg' :
        (m'.errorSnippets.isSome && strTruthy m'.lineNumber && strTruthy m'.filePath) = true
    · rw [enrichLocation, if_pos hg']
    · rw [enrichLocation, if_neg hg']
      have h1 : orList m'.errorSnippets (extractFromErrorMessage msg).errorSnippets
          = m'.errorSnippets := by
        rw [hes]; exact orList_absorb _ _
      have h2 : orStr m'.lineNumber (extractFromErrorMessage msg).lineNumber
          = m'.lineNumber := by
        rw [hln]; exact orStr_absorb _ _
      have h3 : orStr m'.filePath (extractFromErrorMessage msg).filePath = m'.filePath := by
        rw [hfp]; exact orStr_absorb _ _
      calc ({ m' with
              errorSnippets := orList m'.errorSnippets (extractFromErrorMessage msg).errorSnippets
              lineNumber := orStr m'.lineNumber (extractFromErrorMessage msg).lineNumber
              filePath := orStr m'.filePath (extractFromErrorMessage msg).filePath }
            : TestFailureMetadata)
          = { m' with
              errorSnippets := m'.errorSnippets
              lineNumber := m'.lineNumber
              filePath := m'.filePath } := by rw [h1, h2, h3]
        _ = m' := rfl

theorem enrichFramework_idem (msg : String) (n : TestFailureMetadata) :
    enrichFramework msg (enrichFramework msg n) = enrichFramework msg n := by
  by_cases hg : (strTruthy n.locator && strTruthy n.matcher && strTruthy n.actualValue &&
      strTruthy n.expectedValue) = true
  · have he : enrichFramework msg n = n := by rw [enrichFramework, if_pos hg]
    rw [he]; exact he
  · have he : enrichFramework msg n =
        { n with
          locator := orStr n.locator
            (extractFrameworkDetails msg (n.errorSnippets.getD [])).locator
          matcher := orStr n.matcher
            (extractFrameworkDetails msg (n.errorSnippets.getD [])).matcher
          actualValue := orStr n.actualValue
            (extractFrameworkDetails msg (n.errorSnippets.getD [])).actualValue
          expectedValue := orStr n.expectedValue
            (extractFrameworkDetails msg (n.errorSnippets.getD [])).expectedValue
          timeoutMs := orNat n.timeoutMs
            (extractFrameworkDetails msg (n.errorSnippets.getD [])).timeoutMs } := by
      rw [enrichFramework, if_neg hg]
    by_cases hg' : (strTruthy (enrichFramework msg n).locator &&
        strTruthy (enrichFramework msg n).matcher &&
        strTruthy (enrichFramework msg n).actualValue &&
        strTruthy (enrichFramework msg n).expectedValue) = true
    · rw [enrichFramework, if_pos hg']
    · rw [enrichFramework, if_neg hg']
      have hsn : (enrichFramework msg n).errorSnippets = n.errorSnippets :=
        enrichFramework_errorSnippets msg n
      apply TestFailureMetadata.ext <;> try rfl
      · show orStr (enrichFramework msg n).actualValue
          (extractFrameworkDetails msg ((enrichFramework msg n).errorSnippets.getD [])).actualValue
          = (enrichFramework msg n).actualValue
        rw [hsn, he]; exact orStr_absorb _ _
      · show orStr (enrichFramework msg n).expectedValue
          (extractFrameworkDetails msg ((enrichFramework msg n).errorSnippets.getD [])).expectedValue
          = (enrichFramework msg n).expectedValue
        rw [hsn, he]; exact orStr_absorb _ _
      · show orStr (enrichFramework msg n).locator
          (extractFrameworkDetails msg ((enrichFramework msg n).errorSnippets.getD [])).locator
          = (enrichFramework msg n).locator
        rw [hsn, he]; exact orStr_absorb _ _
      · show orStr (enrichFramework msg n).matcher
          (extractFrameworkDetails msg ((enrichFramework msg n).errorSnippets.getD [])).matcher
          = (enrichFramework msg n).matcher
        rw [hsn, he]; exact orStr_absorb _ _
      · show orNat (enrichFramework msg n).timeoutMs
          (extractFrameworkDetails msg ((enrichFramework msg n).errorSnippets.getD [])).timeoutMs
          = (enrichFramework msg n).timeoutMs
        rw [hsn, he]; exact orNat_absorb _ _

theorem orOpt_assoc (a b c : Option α) : orOpt (orOpt a b) c = orOpt a (orOpt b c) := by
  cases a <;> rfl

theorem orOpt_none_right (a : Option α) : orOpt a none = a := by
  cases a <;> rfl

theorem orOpt_eq_or (a b : Option α) : orOpt a b = a.or b := by
  cases a <;> rfl

theorem lastAssertionCapture_nil (f : String → Option β) :
    lastAssertionCapture f [] = none := rfl

theorem lastAssertionCapture_cons (f : String → Option β) (s : String) (ss : List String) :
    lastAssertionCapture f (s :: ss)
      = orOpt (lastAssertionCapture f ss) (if isAssertionSnippet s then f s else none) := by
  rw [lastAssertionCapture, lastAssertionCapture, List.reverse_cons, List.findSome?_append,
    orOpt_eq_or]
  congr 1
  rw [List.findSome?_cons]
  cases h : (if isAssertionSnippet s then f s else none) <;> simp [h, List.findSome?_nil]

theorem foldl_snippetStep_locator (snips : List String) : ∀ acc : FrameworkData,
    (snips.foldl snippetStep acc).locator
      = orOpt (lastAssertionCapture snipLocator snips) acc.locator := by
  induction snips with
  | nil => intro acc; rw [lastAssertionCapture_nil]; rfl
  | cons s ss ih =>
    intro acc
    rw [List.foldl_cons, ih, lastAssertionCapture_cons, orOpt_assoc]
    congr 1
    by_cases ha : isAssertionSnippet s <;> simp [snippetStep, ha, orOpt]

theorem foldl_snippetStep_matcher (snips : List String) : ∀ acc : FrameworkData,
    (snips.foldl snippetStep acc).matcher
      = orOpt (lastAssertionCapture snipMatcher snips) acc.matcher := by
  induction snips with
  | nil => intro acc; rw [lastAssertionCapture_nil]; rfl
  | cons s ss ih =>
    intro acc
    rw [List.foldl_cons, ih, lastAssertionCapture_cons, orOpt_assoc]
    congr 1
    by_cases ha : isAssertionSnippet s <;> simp [snippetStep, ha, orOpt]

theorem foldl_snippetStep_expectedValue (snips : List String) : ∀ acc : FrameworkData,
    (snips.foldl snippetStep acc).expectedValue
      = orOpt (lastAssertionCapture snipExpected snips) acc.expectedValue := by
  induction snips with
  | nil => intro acc; rw [lastAssertionCapture_nil]; rfl
  | cons s ss ih =>
    intro acc
    rw [List.foldl_cons, ih, lastAssertionCapture_cons, orOpt_assoc]
    congr 1
    by_cases ha : isAssertionSnippet s <;> simp [snippetStep, ha, orOpt]

theorem foldl_snippetStep_timeoutMs (snips : List String) : ∀ acc : FrameworkData,
    (snips.foldl snippetStep acc).timeoutMs
      = orOpt (lastAssertionCapture snipTimeout snips) acc.timeoutMs := by
  induction snips with
  | nil => intro acc; rw [lastAssertionCapture_nil]; rfl
  | cons s ss ih =>
    intro acc
    rw [List.foldl_cons, ih, lastAssertionCapture_cons, orOpt_assoc]
    congr 1
    by_cases ha : isAssertionSnippet s <;> simp [snippetStep, ha, orOpt]

theorem foldl_snippetStep_actualValue (snips : List String) : ∀ acc : FrameworkData,
    (snips.foldl snippetStep acc).actualValue = acc.actualValue := by
  induction snips with
  | nil => intro acc; rfl
  | cons s ss ih =>
    intro acc
    rw [List.foldl_cons, ih]
    by_cases ha : isAssertionSnippet s <;> simp [snippetStep, ha]

theorem extractFrameworkDetails_locator (msg : String) (snips : List String) :
    (extractFrameworkDetails msg snips).locator = lastAssertionCapture snipLocator snips := by
  rw [extractFrameworkDetails, foldl_snippetStep_locator]
  exact orOpt_none_right _

theorem extractFrameworkDetails_matcher (msg : String) (snips : List String) :
    (extractFrameworkDetails msg snips).matcher = lastAssertionCapture snipMatcher snips := by
  rw [extractFrameworkDetails, foldl_snippetStep_matcher]
  exact orOpt_none_right _

theorem extractFrameworkDetails_actualValue (msg : String) (snips : List String) :
    (extractFrameworkDetails msg snips).actualValue = msgActual msg := by
  rw [extractFrameworkDetails, foldl_snippetStep_actualValue]

theorem extractFrameworkDetails_expectedValue (msg : String) (snips : List String) :
    (extractFrameworkDetails msg snips).expectedValue
      = orOpt (lastAssertionCapture snipExpected snips) (msgExpected msg) := by
  rw [extractFrameworkDetails, foldl_snippetStep_expectedValue]

theorem extractFrameworkDetails_timeoutMs (msg : String) (snips : List String) :
    (extractFrameworkDetails msg snips).timeoutMs
      = orOpt (lastAssertionCapture snipTimeout snips) (msgTimeout msg) := by
  rw [extractFrameworkDetails, foldl_snippetStep_timeoutMs]

theorem enrichLocation_filePath_truthy (msg : String) (m : TestFailureMetadata)
    (h : strTruthy m.filePath = true) : (enrichLocation msg m).filePath = m.filePath := by
  rw [enrichLocation]; split
  · rfl
  · exact orStr_of_truthy _ h

theorem enrichLocation_lineNumber_truthy (msg : String) (m : TestFailureMetadata)
    (h : strTruthy m.lineNumber = true) : (enrichLocation msg m).lineNumber = m.lineNumber := by
  rw [enrichLocation]; split
  · rfl
  · exact orStr_of_truthy _ h

theorem enrichLocation_errorSnippets_isSome (msg : String) (m : TestFailureMetadata)
    (h : m.errorSnippets.isSome = true) :
    (enrichLocation msg m).errorSnippets = m.errorSnippets := by
  rw [enrichLocation]; split
  · rfl
  · exact orList_of_isSome _ h

theorem enrichFramework_locator_truthy (msg : String) (m : TestFailureMetadata)
    (h : strTruthy m.locator = true) : (enrichFramework msg m).locator = m.locator := by
  rw [enrichFramework]; split
  · rfl
  · exact orStr_of_truthy _ h

theorem enrichFramework_matcher_truthy (msg : String) (m : TestFailureMetadata)
    (h : strTruthy m.matcher = true) : (enrichFramework msg m).matcher = m.matcher := by
  rw [enrichFramework]; split
  · rfl
  · exact orStr_of_truthy _ h

theorem enrichFramework_actualValue_truthy (msg : String) (m : TestFailureMetadata)
    (h : strTruthy m.actualValue = true) :
    (enrichFramework msg m).actualValue = m.actualValue := by
  rw [enrichFramework]; split
  · rfl
  · exact orStr_of_truthy _ h

theorem enrichFramework_expectedValue_truthy (msg : String) (m : TestFailureMetadata)
    (h : strTruthy m.expectedValue = true) :
    (enrichFramework msg m).expectedValue = m.expectedValue := by
  rw [enrichFramework]; split
  · rfl
  · exact orStr_of_truthy _ h

theorem enrichFramework_timeoutMs_truthy (msg : String) (m : TestFailureMetadata)
    (h : natTruthy m.timeoutMs = true) : (enrichFramework msg m).timeoutMs = m.timeoutMs := by
  rw [enrichFramework]; split
  · rfl
  · exact orNat_of_truthy _ h

theorem enrichFramework_locator_of_none (msg : String) (m : TestFailureMetadata)
    (h : m.locator = none) :
    (enrichFramework msg m).locator
      = (extractFrameworkDetails msg (m.errorSnippets.getD [])).locator := by
  rw [enrichFramework]; split
  · next hg => rw [h] at hg; simp [strTruthy] at hg
  · show orStr m.locator _ = _
    rw [h]; rfl

theorem enrichFramework_matcher_of_none (msg : String) (m : TestFailureMetadata)
    (h : m.matcher = none) :
    (enrichFramework msg m).matcher
      = (extractFrameworkDetails msg (m.errorSnippets.getD [])).matcher := by
  rw [enrichFramework]; split
  · next hg => rw [h] at hg; simp [strTruthy] at hg
  · show orStr m.matcher _ = _
    rw [h]; rfl

theorem enrichFramework_actualValue_of_none (msg : String) (m : TestFailureMetadata)
    (h : m.actualValue = none) :
    (enrichFramework msg m).actualValue
      = (extractFrameworkDetails msg (m.errorSnippets.getD [])).actualValue := by
  rw [enrichFramework]; split
  · next hg => rw [h] at hg; simp [strTruthy] at hg
  · show orStr m.actualValue _ = _
    rw [h]; rfl

theorem enrichFramework_expectedValue_of_none (msg : String) (m : TestFailureMetadata)
    (h : m.expectedValue = none) :
    (enrichFramework msg m).expectedValue
      = (extractFrameworkDetails msg (m.errorSnippets.getD [])).expectedValue := by
  rw [enrichFramework]; split
  · next hg => rw [h] at hg; simp [strTruthy] at hg
  · show orStr m.expectedValue _ = _
    rw [h]; rfl

theorem enrichFramework_timeoutMs_of_none (msg : String) (m : TestFailureMetadata)
    (he : m.expectedValue = none) (ht : m.timeoutMs = none) :
    (enrichFramework msg m).timeoutMs
      = (extractFrameworkDetails msg (m.errorSnippets.getD [])).timeoutMs := by
  rw [enrichFramework]; split
  · next hg => rw [he] at hg; simp [strTruthy] at hg
  · show orNat m.timeoutMs _ = _
    rw [ht]; rfl

theorem set_append_len (l : List α) (a v : α) : (l ++ [a]).set l.length v = l ++ [v] := by
  induction l with
  | nil => rfl
  | cons x xs ih => simp [ih]

theorem getD_append_len (l : List α) (a d : α) : (l ++ [a]).getD l.length d = a := by
  induction l with
  | nil => rfl
  | cons x xs ih => simp [ih]

theorem bump_of_mem (toKey : α → String) (acc : List (String × Nat × α)) (a : α)
    (h : (acc.any fun e => e.1 == toKey a) = true) :
    bump toKey acc a
      = acc.map fun e => if e.1 == toKey a then (e.1, e.2.1 + 1, e.2.2) else e := by
  rw [bump, if_pos h]

theorem bump_of_not_mem (toKey : α → String) (acc : List (String × Nat × α)) (a : α)
    (h : (acc.any fun e => e.1 == toKey a) = false) :
    bump toKey acc a = acc ++ [(toKey a, 1, a)] := by
  rw [bump, if_neg (by simp [h])]

theorem keys_bump_mem (toKey : α → String) (acc : List (String × Nat × α)) (a : α)
    (h : (acc.any fun e => e.1 == toKey a) = true) :
    (bump toKey acc a).map (·.1) = acc.map (·.1) := by
  rw [bump_of_mem toKey acc a h, List.map_map]
  apply List.map_congr_left
  intro e _
  simp only [Function.comp_apply]
  split <;> rfl

theorem keysContains_eq_any (acc : List (String × Nat × α)) (k : String) :
    (acc.map (·.1)).contains k = acc.any fun e => e.1 == k := by
  induction acc with
  | nil => rfl
  | cons e t ih =>
    rw [List.map_cons, List.contains_cons, List.any_cons, ih, BEq.comm]

theorem firstSeenGo_congr (toKey : α → String) : ∀ (l : List α) (seen1 seen2 : List String),
    (∀ k, seen1.contains k = seen2.contains k) →
    firstSeenGo toKey seen1 l = firstSeenGo toKey seen2 l := by
  intro l
  induction l with
  | nil => intro s1 s2 _; rfl
  | cons a t ih =>
    intro s1 s2 h
    rw [firstSeenGo, firstSeenGo, h (toKey a)]
    split
    · exact ih s1 s2 h
    · rw [ih (toKey a :: s1) (toKey a :: s2) fun k => by
        rw [List.contains_cons, List.contains_cons, h k]]

theorem not_seen_of_mem_firstSeenGo (toKey : α → String) {v : α} : ∀ (l : List α)
    (seen : List String), v ∈ firstSeenGo toKey seen l → seen.contains (toKey v) = false := by
  intro l
  induction l with
  | nil => intro seen h; simp [firstSeenGo] at h
  | cons a t ih =>
    intro seen h
    rw [firstSeenGo] at h
    by_cases hc : seen.contains (toKey a) = true
    · rw [if_pos hc] at h
      exact ih seen h
    · rw [if_neg hc] at h
      rcases List.mem_cons.mp h with h1 | h1
      · subst h1
        exact Bool.eq_false_iff.mpr hc
      · have h2 := ih (toKey a :: seen) h1
        rw [List.contains_cons] at h2
        exact (Bool.or_eq_false_iff.mp h2).2

theorem mem_of_mem_firstSeenGo (toKey : α → String) {v : α} : ∀ (l : List α)
    (seen : List String), v ∈ firstSeenGo toKey seen l → v ∈ l := by
  intro l
  induction l with
  | nil => intro seen h; simp [firstSeenGo] at h
  | cons a t ih =>
    intro seen h
    rw [firstSeenGo] at h
    split at h
    · exact List.mem_cons_of_mem _ (ih _ h)
    · rcases List.mem_cons.mp h with h1 | h1
      · exact h1 ▸ List.mem_cons_self _ _
      · exact List.mem_cons_of_mem _ (ih _ h1)

theorem keyCountP_cons_eq (toKey : α → String) (a : α) (k : String) (t : List α)
    (h : (toKey a == k) = true) :
    keyCountP toKey k (a :: t) = keyCountP toKey k t + 1 := by
  simp only [keyCountP, List.countP_cons, h]
  rfl

theorem keyCountP_cons_ne (toKey : α → String) (a : α) (k : String) (t : List α)
    (h : (toKey a == k) = false) :
    keyCountP toKey k (a :: t) = keyCountP toKey k t := by
  simp only [keyCountP, List.countP_cons, h]
  rfl

theorem containsAppendSingleton (s : List String) (a k : String) :
    (s ++ [a]).contains k = (a :: s).contains k := by
  induction s with
  | nil => rfl
  | cons x xs ih =>
    rw [List.cons_append, List.contains_cons, ih, List.contains_cons, List.contains_cons,
      List.contains_cons]
    rw [← Bool.or_assoc, ← Bool.or_assoc, Bool.or_comm (k == x) (k == a)]

theorem buildCounts_spec_aux (toKey : α → String) : ∀ (l : List α)
    (acc : List (String × Nat × α)),
    l.foldl (bump toKey) acc
      = (acc.map fun e => (e.1, e.2.1 + keyCountP toKey e.1 l, e.2.2))
        ++ (firstSeenGo toKey (acc.map (·.1)) l).map
            fun v => (toKey v, keyCountP toKey (toKey v) l, v) := by
  intro l
  induction l with
  | nil =>
    intro acc
    rw [List.foldl_nil, firstSeenGo, List.map_nil, List.append_nil]
    rw [show (acc.map fun e => (e.1, e.2.1 + keyCountP toKey e.1 ([] : List α), e.2.2))
        = acc.map id from List.map_congr_left fun e _ => by simp [keyCountP], List.map_id]
  | cons a t ih =>
    intro acc
    rw [List.foldl_cons, ih (bump toKey acc a)]
    by_cases hmem : (acc.any fun e => e.1 == toKey a) = true
    · rw [keys_bump_mem toKey acc a hmem, bump_of_mem toKey acc a hmem, List.map_map]
      rw [firstSeenGo, if_pos (by rw [keysContains_eq_any]; exact hmem)]
      congr 1
      · apply List.map_congr_left
        intro e _
        simp only [Function.comp_apply]
        by_cases he : (e.1 == toKey a) = true
        · rw [if_pos he]
          have hTrue : (toKey a == e.1) = true := by
            rw [eq_of_beq he]
            exact beq_self_eq_true (toKey a)
          rw [keyCountP_cons_eq toKey a e.1 t hTrue]
          simp only [Prod.mk.injEq]
          refine ⟨trivial, by omega, trivial⟩
        · rw [if_neg he]
          have he' : (toKey a == e.1) = false := by
            rw [BEq.comm]; exact Bool.eq_false_iff.mpr he
          rw [keyCountP_cons_ne toKey a e.1 t he']
      · apply List.map_congr_left
        intro v hv
        have hvs : (acc.map (·.1)).contains (toKey v) = false :=
          not_seen_of_mem_firstSeenGo toKey t _ hv
        have hva : (toKey a == toKey v) = false := by
          apply Bool.eq_false_iff.mpr
          intro hEq
          have heq := eq_of_beq hEq
          rw [keysContains_eq_any, ← heq] at hvs
          rw [hvs] at hmem
          exact Bool.false_ne_true hmem
        rw [keyCountP_cons_ne toKey a (toKey v) t hva]
    · have hmem' : (acc.any fun e => e.1 == toKey a) = false :=
        Bool.eq_false_iff.mpr hmem
      rw [bump_of_not_mem toKey acc a hmem', List.map_append, List.map_append]
      rw [firstSeenGo, if_neg (by
        rw [keysContains_eq_any, hmem']
        exact Bool.false_ne_true)]
      rw [show (List.map (fun x => x.1) [((toKey a : String), (1 : Nat), a)]) = [toKey a]
        from rfl]
      rw [firstSeenGo_congr toKey t ((acc.map fun x => x.1) ++ [toKey a])
        (toKey a :: acc.map fun x => x.1)
        fun k => containsAppendSingleton (acc.map fun x => x.1) (toKey a) k]
      rw [List.map_cons, List.append_assoc]
      congr 1
      · apply List.map_congr_left
        intro e he
        have hea : (e.1 == toKey a) = false :=
          Bool.eq_false_iff.mpr (List.any_eq_false.mp hmem' e he)
        have hea' : (toKey a == e.1) = false := by
          rw [BEq.comm]; exact hea
        rw [keyCountP_cons_ne toKey a e.1 t hea']
      · rw [List.map_nil, List.singleton_append, List.map_cons]
        congr 1
        · rw [keyCountP_cons_eq toKey a (toKey a) t (beq_self_eq_true (toKey a))]
          simp only [Prod.mk.injEq]
          refine ⟨trivial, by omega, trivial⟩
        · apply List.map_congr_left
          intro v hv
          have hvs := not_seen_of_mem_firstSeenGo toKey t _ hv
          rw [List.contains_cons] at hvs
          have hva : (toKey a == toKey v) = false := by
            rw [BEq.comm]; exact (Bool.or_eq_false_iff.mp hvs).1
          rw [keyCountP_cons_ne toKey a (toKey v) t hva]

theorem digitChar_toNat (d : Nat) (h : d < 10) : (digitChar d).toNat - '0'.toNat = d := by
  rcases d with _|_|_|_|_|_|_|_|_|_|n
  case succ.succ.succ.succ.succ.succ.succ.succ.succ.succ => omega
  all_goals rfl

theorem natToCharsGo_foldl : ∀ (fuel n : Nat) (acc : List Char) (init : Nat), n < fuel →
    ∃ K, 0 < K ∧ (natToCharsGo fuel n acc).foldl (fun m c => m * 10 + (c.toNat - '0'.toNat)) init
      = acc.foldl (fun m c => m * 10 + (c.toNat - '0'.toNat)) (init * K + n) := by
  intro fuel
  induction fuel with
  | zero => intro n acc init h; omega
  | succ f ih =>
    intro n acc init h
    rw [natToCharsGo]
    by_cases hn : n < 10
    · refine ⟨10, by omega, ?_⟩
      rw [if_pos hn, List.foldl_cons, digitChar_toNat n hn]
    · rw [if_neg hn]
      have h10 : n / 10 < f := by
        have hlt : n / 10 < n := Nat.div_lt_self (by omega) (by omega)
        omega
      obtain ⟨K, hK, hE⟩ := ih (n / 10) (digitChar (n % 10) :: acc) init h10
      refine ⟨K * 10, by omega, ?_⟩
      rw [hE, List.foldl_cons, digitChar_toNat (n % 10) (Nat.mod_lt _ (by omega))]
      rw [← Nat.mul_assoc]
      congr 1
      omega

theorem digitsToNat_natToKey (n : Nat) : digitsToNat (natToKey n).data = n := by
  obtain ⟨K, _, hE⟩ := natToCharsGo_foldl (n + 1) n [] 0 (by omega)
  show (natToCharsGo (n + 1) n []).foldl _ 0 = n
  rw [hE]
  simp

theorem natToKey_injective (a b : Nat) (h : natToKey a = natToKey b) : a = b := by
  have h2 := congrArg (fun s => digitsToNat s.data) h
  simp only at h2
  rwa [digitsToNat_natToKey, digitsToNat_natToKey] at h2

theorem buildCounts_spec (toKey : α → String) (l : List α) :
    buildCounts toKey l
      = (firstSeenByKey toKey l).map fun v => (toKey v, keyCountP toKey (toKey v) l, v) := by
  rw [buildCounts, buildCounts_spec_aux toKey l [], List.map_nil, List.nil_append]
  rfl

theorem insertByKeyNat_map_h (toKey : α → String) (c : α → Nat) (v : α) :
    ∀ l : List α,
    insertByKeyNat (toKey v, c v, v) (l.map fun x => (toKey x, c x, x))
      = (insertValByKeyNat toKey v l).map fun x => (toKey x, c x, x) := by
  intro l
  induction l with
  | nil => rfl
  | cons x xs ih =>
    rw [List.map_cons, insertByKeyNat, insertValByKeyNat]
    simp only [keyNat]
    by_cases hc : (keyToNat? (toKey x)).getD 0 ≤ (keyToNat? (toKey v)).getD 0
    · rw [if_pos hc, if_pos hc, ih, List.map_cons]
    · rw [if_neg hc, if_neg hc, List.map_cons, List.map_cons]

theorem sortByKeyNat_map_h (toKey : α → String) (c : α → Nat) (l : List α) :
    sortByKeyNat (l.map fun x => (toKey x, c x, x))
      = (sortValByKeyNat toKey l).map fun x => (toKey x, c x, x) := by
  induction l with
  | nil => rfl
  | cons x xs ih =>
    rw [List.map_cons, sortByKeyNat, List.foldr_cons, sortValByKeyNat, List.foldr_cons]
    rw [show (List.foldr insertByKeyNat [] (xs.map fun x => (toKey x, c x, x)))
        = sortByKeyNat (xs.map fun x => (toKey x, c x, x)) from rfl, ih]
    exact insertByKeyNat_map_h toKey c x (List.foldr (insertValByKeyNat toKey) [] xs)

theorem findCommonElements_spec (toKey : α → String) (elements : List α)
    (thresholdCount : ℚ) :
    findCommonElements toKey elements thresholdCount
      = (sortValByKeyNat toKey ((firstSeenByKey toKey elements).filter
            fun v => isArrayIndexKey (toKey v))).filter
          (fun v => decide (thresholdCount ≤ (keyCountP toKey (toKey v) elements : ℚ)))
        ++ (((firstSeenByKey toKey elements).filter
            fun v => !isArrayIndexKey (toKey v)).filter
          fun v => decide (thresholdCount ≤ (keyCountP toKey (toKey v) elements : ℚ))) := by
  rw [findCommonElements, buildCounts_spec, jsObjectValues]
  rw [List.filter_map, List.filter_map]
  rw [show ((firstSeenByKey toKey elements).filter
        ((fun e : String × Nat × α => isArrayIndexKey e.1)
          ∘ fun v => (toKey v, keyCountP toKey (toKey v) elements, v)))
      = (firstSeenByKey toKey elements).filter (fun v => isArrayIndexKey (toKey v))
    from List.filter_congr fun v _ => rfl]
  rw [show ((firstSeenByKey toKey elements).filter
        ((fun e : String × Nat × α => !isArrayIndexKey e.1)
          ∘ fun v => (toKey v, keyCountP toKey (toKey v) elements, v)))
      = (firstSeenByKey toKey elements).filter (fun v => !isArrayIndexKey (toKey v))
    from List.filter_congr fun v _ => rfl]
  rw [sortByKeyNat_map_h toKey (fun v => keyCountP toKey (toKey v) elements)]
  rw [← List.map_append, List.filter_map, List.map_map]
  rw [List.filter_append, List.map_append]
  have hpred : ∀ X : List α, X.filter
      ((fun e : String × Nat × α => decide (thresholdCount ≤ (e.2.1 : ℚ)))
        ∘ fun x => (toKey x, keyCountP toKey (toKey x) elements, x))
      = X.filter fun v => decide (thresholdCount ≤ (keyCountP toKey (toKey v) elements : ℚ)) :=
    fun X => List.filter_congr fun v _ => rfl
  have hmap : ∀ X : List α, X.map
      ((fun e : String × Nat × α => e.2.2)
        ∘ fun x => (toKey x, keyCountP toKey (toKey x) elements, x)) = X := by
    intro X
    rw [show ((fun e : String × Nat × α => e.2.2)
        ∘ fun x => (toKey x, keyCountP toKey (toKey x) elements, x)) = id from rfl]
    exact List.map_id X
  rw [hpred, hpred, hmap, hmap]

theorem le_keyCountP_of_mem_findCommonElements (toKey : α → String) (elements : List α)
    (t : ℚ) (v : α) (h : v ∈ findCommonElements toKey elements t) :
    t ≤ (keyCountP toKey (toKey v) elements : ℚ) := by
  rw [findCommonElements_spec] at h
  rcases List.mem_append.mp h with h1 | h1
  · exact of_decide_eq_true (List.mem_filter.mp h1).2
  · exact of_decide_eq_true (List.mem_filter.mp h1).2

theorem keyCountP_id (v : String) (l : List String) :
    keyCountP id v l = l.countP (· == v) := rfl

theorem countP_filterMap_some (g : α → Option β) (v : β) [BEq β] :
    ∀ l : List α, (l.filterMap g).countP (· == v) = l.countP fun a => g a == some v := by
  intro l
  induction l with
  | nil => rfl
  | cons a t ih =>
    rw [List.filterMap_cons, List.countP_cons]
    cases hg : g a with
    | none =>
      rw [ih]
      simp [hg]
    | some b =>
      rw [List.countP_cons, ih]
      simp [hg]

theorem keyCountP_natToKey (u : Nat) (l : List Nat) :
    keyCountP natToKey (natToKey u) l = l.countP (· == u) := by
  rw [keyCountP]
  apply List.countP_congr
  intro x _
  constructor
  · intro hx
    have := natToKey_injective x u (eq_of_beq hx)
    simp [this]
  · intro hx
    have := eq_of_beq hx
    simp [this]

theorem half_le_of_mem (n k1 k2 : Nat) (h1 : ((n : ℚ) * (1 / 2)) ≤ (k1 : ℚ)) (h2 : k1 ≤ k2) :
    n ≤ 2 * k2 := by
  have hq : (n : ℚ) ≤ 2 * (k1 : ℚ) := by linarith
  have hn : n ≤ 2 * k1 := by exact_mod_cast hq
  omega

theorem mem_insertByCountDesc (a c : FailureCluster) : ∀ l : List FailureCluster,
    a ∈ insertByCountDesc c l ↔ a = c ∨ a ∈ l := by
  intro l
  induction l with
  | nil => simp [insertByCountDesc]
  | cons x xs ih =>
    rw [insertByCountDesc]
    split
    · rw [List.mem_cons, ih, List.mem_cons]
      tauto
    · rw [List.mem_cons, List.mem_cons]

theorem mem_sortByCountDesc (a : FailureCluster) : ∀ l : List FailureCluster,
    a ∈ sortByCountDesc l ↔ a ∈ l := by
  intro l
  induction l with
  | nil => simp [sortByCountDesc]
  | cons x xs ih =>
    rw [sortByCountDesc, List.foldr_cons,
      show List.foldr insertByCountDesc [] xs = sortByCountDesc xs from rfl,
      mem_insertByCountDesc, ih, List.mem_cons]

theorem length_insertByCountDesc (c : FailureCluster) : ∀ l : List FailureCluster,
    (insertByCountDesc c l).length = l.length + 1 := by
  intro l
  induction l with
  | nil => rfl
  | cons x xs ih =>
    rw [insertByCountDesc]
    split
    · rw [List.length_cons, ih, List.length_cons]
    · rfl

theorem length_sortByCountDesc : ∀ l : List FailureCluster,
    (sortByCountDesc l).length = l.length := by
  intro l
  induction l with
  | nil => rfl
  | cons x xs ih =>
    rw [sortByCountDesc, List.foldr_cons,
      show List.foldr insertByCountDesc [] xs = sortByCountDesc xs from rfl,
      length_insertByCountDesc, ih, List.length_cons]

theorem mem_clusterFailures_elim (efs : List EmbeddedFailure) (opts : ClusteringOptions)
    (c : FailureCluster) (h : c ∈ clusterFailures efs opts) :
    ∃ idxs clusterId, ¬((idxs.length : Int) < opts.minClusterSize)
      ∧ c = buildCluster efs dateNowIso idxs clusterId := by
  rw [clusterFailures] at h
  split at h
  · simp at h
  · rw [mem_sortByCountDesc] at h
    obtain ⟨gi, _, hf⟩ := List.mem_filterMap.mp h
    by_cases hsz : ((gi.2.length : Int) < opts.minClusterSize)
    · rw [if_pos hsz] at hf
      exact absurd hf (by simp)
    · rw [if_neg hsz] at hf
      exact ⟨gi.2, gi.1, hsz, (Option.some.inj hf).symm⟩

theorem length_filterMap_sizeFilter (mcs : Int) (b : Nat → List Nat → FailureCluster) :
    ∀ (groups : List (List Nat)) (n : Nat),
    ((List.enumFrom n groups).filterMap fun gi =>
        if (gi.2.length : Int) < mcs then none else some (b gi.1 gi.2)).length
      = (groups.filter fun g => !((g.length : Int) < mcs)).length := by
  intro groups
  induction groups with
  | nil => intro n; rfl
  | cons g gs ih =>
    intro n
    by_cases hsz : ((g.length : Int) < mcs) <;>
      simp [List.enumFrom_cons, List.filterMap_cons, List.filter_cons, hsz, ih]

theorem buildCluster_count (efs : List EmbeddedFailure) (ts : String) (idxs : List Nat)
    (i : Nat) : (buildCluster efs ts idxs i).count = idxs.length := by
  show (idxs.map fun idx => efs.getD idx default).length = idxs.length
  rw [List.length_map]

theorem buildCluster_failureIds_length (efs : List EmbeddedFailure) (ts : String)
    (idxs : List Nat) (i : Nat) :
    (buildCluster efs ts idxs i).failureIds.length = idxs.length := by
  show ((idxs.map fun idx => efs.getD idx default).map (·.id)).length = idxs.length
  rw [List.length_map, List.length_map]

theorem filterBoolStr_beq_some {o : Option String} {v : String}
    (h : (filterBoolStr o == some v) = true) : (o == some v) = true := by
  cases o with
  | none => simp [filterBoolStr] at h
  | some s =>
    rw [filterBoolStr] at h
    by_cases hs : (s == "") = true
    · rw [if_pos hs] at h
      simp at h
    · rw [if_neg hs] at h
      exact h

theorem timeoutPos_beq_some {o : Option Nat} {u : Nat}
    (h : ((match o with
            | some t => if 0 < t then some t else none
            | none => none) == some u) = true) : (o == some u) = true := by
  cases o with
  | none => simp at h
  | some t =>
    by_cases ht : 0 < t
    · rw [show (match some t with
          | some t => if 0 < t then some t else none
          | none => none) = if 0 < t then some t else none from rfl, if_pos ht] at h
      exact h
    · rw [show (match some t with
          | some t => if 0 < t then some t else none
          | none => none) = if 0 < t then some t else none from rfl, if_neg ht] at h
      simp at h

/-- A list head mismatch refutes the label prefix test. -/
theorem hasLabel_false_head (L s : String) (c d : Char)
    (hc : L.data.head? = some c) (hd : s.data.head? = some d)
    (h : (c == d) = false) : hasLabel L s = false := by
  unfold hasLabel
  cases hL : L.data with
  | nil => rw [hL] at hc; cases hc
  | cons a as =>
    cases hs : s.data with
    | nil => rw [hs] at hd; cases hd
    | cons b bs =>
      rw [hL] at hc
      rw [hs] at hd
      rw [List.head?_cons, Option.some.injEq] at hc hd
      subst hc
      subst hd
      show (a == b && List.isPrefixOf as bs) = false
      rw [h, Bool.false_and]

/-- A second-character mismatch refutes the label prefix test. -/
theorem hasLabel_false_head2 (L s : String) (c c2 d d2 : Char)
    (hc : L.data.head? = some c) (hc2 : L.data.tail.head? = some c2)
    (hd : s.data.head? = some d) (hd2 : s.data.tail.head? = some d2)
    (h : (c2 == d2) = false) : hasLabel L s = false := by
  unfold hasLabel
  cases hL : L.data with
  | nil => rw [hL] at hc; cases hc
  | cons a as =>
    cases hs : s.data with
    | nil => rw [hs] at hd; cases hd
    | cons b bs =>
      rw [hL] at hc hc2
      rw [hs] at hd hd2
      rw [List.head?_cons, Option.some.injEq] at hc hd
      subst hc
      subst hd
      rw [List.tail_cons] at hc2 hd2
      cases hL2 : as with
      | nil => rw [hL2] at hc2; cases hc2
      | cons a2 as2 =>
        cases hs2 : bs with
        | nil => rw [hs2] at hd2; cases hd2
        | cons b2 bs2 =>
          rw [hL2] at hc2
          rw [hs2] at hd2
          rw [List.head?_cons, Option.some.injEq] at hc2 hd2
          subst hc2
          subst hd2
          show (a == b && (a2 == b2 && List.isPrefixOf as2 bs2)) = false
          rw [h, Bool.false_and, Bool.and_false]

/-- `isPrefixOf` accepts any extension of the list itself. -/
theorem isPrefixOf_append_right (l t : List Char) :
    List.isPrefixOf l (l ++ t) = true := by
  induction l with
  | nil => rw [List.nil_append]; cases t <;> rfl
  | cons a as ih =>
    show (a == a && List.isPrefixOf as (as ++ t)) = true
    rw [ih, beq_self_eq_true, Bool.and_self]

/-- A fragment built as `label ++ value` carries its label. -/
theorem hasLabel_append_self (L v : String) : hasLabel L (L ++ v) = true := by
  unfold hasLabel
  show List.isPrefixOf L.data (L.data ++ v.data) = true
  exact isPrefixOf_append_right _ _

/-- Counting a predicate over a replicated list. -/
theorem countP_replicate (p : α → Bool) (n : Nat) (a : α) :
    (List.replicate n a).countP p = if p a then n else 0 := by
  induction n with
  | zero => cases hp : p a <;> simp
  | succ k ih =>
    rw [List.replicate_succ, List.countP_cons, ih]
    cases hp : p a <;> simp [hp]

/-- Counting a predicate over a conditional block. -/
theorem countP_if (p : α → Bool) (c : Prop) [Decidable c] (l1 l2 : List α) :
    (if c then l1 else l2).countP p = if c then l1.countP p else l2.countP p := by
  split <;> rfl

/-- The `config.<feature>?.weight || 1.0` fallback followed by
`Math.max(1, Math.round(weight))` computes the count the spec states
directly from the configured weight. -/
theorem repeatCount_effectiveWeight (w : Option WeightOpt) :
    repeatCount (effectiveWeight w) = specRepeatCount w := by
  cases w with
  | none => rfl
  | some o =>
    have key : effectiveWeight (some o) = if o.weight == 0 then 1 else o.weight := rfl
    have spec : specRepeatCount (some o) = (max 1 (roundJS o.weight)).toNat := rfl
    rcases hq : (o.weight == 0) with _ | _
    · rw [repeatCount, key, hq, if_neg Bool.false_ne_true, spec]
    · have h0 : o.weight = 0 := eq_of_beq hq
      have r1 : roundJS 1 = 1 := by
        rw [roundJS, Int.floor_eq_iff]; norm_num
      have r0 : roundJS 0 = 0 := by
        rw [roundJS, Int.floor_eq_iff]; norm_num
      rw [repeatCount, key, hq, if_pos rfl, spec, h0, r1, r0]
      omega

/-- A fragment built as `label ++ value ++ suffix` carries its label. -/
theorem hasLabel_append_self2 (L v w : String) : hasLabel L (L ++ v ++ w) = true := by
  unfold hasLabel
  show List.isPrefixOf L.data ((L.data ++ v.data) ++ w.data) = true
  rw [List.append_assoc]
  exact isPrefixOf_append_right _ _

/-- The Playwright context builder pushes a `Selector: ` fragment exactly
`repeatCount (effectiveWeight config.selectors)` times when a selector or
locator is present, and never otherwise. -/
theorem countP_playwright_selector (f : TestFailure)
    (config : PlaywrightEmbeddingConfig) :
    (playwrightContextElements f config).countP (hasLabel "Selector: ")
      = if strTruthy f.metadata.selector || strTruthy f.metadata.locator
        then repeatCount (effectiveWeight config.selectors) else 0 := by
  have hTest : ∀ v : String, hasLabel "Selector: " ("Test: " ++ v) = false :=
    fun v => hasLabel_false_head _ _ 'S' 'T' rfl rfl rfl
  have hProj : ∀ v : String, hasLabel "Selector: " ("Project: " ++ v) = false :=
    fun v => hasLabel_false_head _ _ 'S' 'P' rfl rfl rfl
  have hSuite : ∀ v : String, hasLabel "Selector: " ("Suite: " ++ v) = false :=
    fun v => hasLabel_false_head2 _ _ 'S' 'e' 'S' 'u' rfl rfl rfl rfl rfl
  have hLoc : ∀ a b : String,
      hasLabel "Selector: " ("Location: " ++ a ++ ":" ++ b) = false :=
    fun a b => hasLabel_false_head _ _ 'S' 'L' rfl rfl rfl
  have hMatch : ∀ v : String, hasLabel "Selector: " ("Matcher: " ++ v) = false :=
    fun v => hasLabel_false_head _ _ 'S' 'M' rfl rfl rfl
  have hExp : ∀ v : String,
      hasLabel "Selector: " ("Expected: \"" ++ v ++ "\"") = false :=
    fun v => hasLabel_false_head _ _ 'S' 'E' rfl rfl rfl
  have hAct : ∀ v : String,
      hasLabel "Selector: " ("Actual: \"" ++ v ++ "\"") = false :=
    fun v => hasLabel_false_head _ _ 'S' 'A' rfl rfl rfl
  have hTim : ∀ v : String,
      hasLabel "Selector: " ("Timeout: " ++ v ++ "ms") = false :=
    fun v => hasLabel_false_head _ _ 'S' 'T' rfl rfl rfl
  have hCode : ∀ v : String, hasLabel "Selector: " ("Code:\n" ++ v) = false :=
    fun v => hasLabel_false_head _ _ 'S' 'C' rfl rfl rfl
  have hErr : ∀ v : String, hasLabel "Selector: " ("Error: " ++ v) = false :=
    fun v => hasLabel_false_head _ _ 'S' 'E' rfl rfl rfl
  simp only [playwrightContextElements]
  rcases f.metadata.testPath with _ | tp <;>
    rcases f.metadata.errorSnippets with _ | (_ | ⟨s, ss⟩) <;>
      simp [List.countP_append, List.countP_cons, countP_if, countP_replicate,
        hasLabel_append_self, hTest, hProj, hSuite, hLoc, hMatch, hExp, hAct,
        hTim, hCode, hErr]

/-- The Playwright context builder pushes a `Matcher: ` fragment exactly
`repeatCount (effectiveWeight config.assertions)` times when a matcher is
present, and never otherwise. -/
theorem countP_playwright_matcher (f : TestFailure)
    (config : PlaywrightEmbeddingConfig) :
    (playwrightContextElements f config).countP (hasLabel "Matcher: ")
      = if strTruthy f.metadata.matcher
        then repeatCount (effectiveWeight config.assertions) else 0 := by
  have hTest : ∀ v : String, hasLabel "Matcher: " ("Test: " ++ v) = false :=
    fun v => hasLabel_false_head _ _ 'M' 'T' rfl rfl rfl
  have hProj : ∀ v : String, hasLabel "Matcher: " ("Project: " ++ v) = false :=
    fun v => hasLabel_false_head _ _ 'M' 'P' rfl rfl rfl
  have hSuite : ∀ v : String, hasLabel "Matcher: " ("Suite: " ++ v) = false :=
    fun v => hasLabel_false_head _ _ 'M' 'S' rfl rfl rfl
  have hLoc : ∀ a b : String,
      hasLabel "Matcher: " ("Location: " ++ a ++ ":" ++ b) = false :=
    fun a b => hasLabel_false_head _ _ 'M' 'L' rfl rfl rfl
  have hSel : ∀ v : String, hasLabel "Matcher: " ("Selector: " ++ v) = false :=
    fun v => hasLabel_false_head _ _ 'M' 'S' rfl rfl rfl
  have hExp : ∀ v : String,
      hasLabel "Matcher: " ("Expected: \"" ++ v ++ "\"") = false :=
    fun v => hasLabel_false_head _ _ 'M' 'E' rfl rfl rfl
  have hAct : ∀ v : String,
      hasLabel "Matcher: " ("Actual: \"" ++ v ++ "\"") = false :=
    fun v => hasLabel_false_head _ _ 'M' 'A' rfl rfl rfl
  have hTim : ∀ v : String,
      hasLabel "Matcher: " ("Timeout: " ++ v ++ "ms") = false :=
    fun v => hasLabel_false_head _ _ 'M' 'T' rfl rfl rfl
  have hCode : ∀ v : String, hasLabel "Matcher: " ("Code:\n" ++ v) = false :=
    fun v => hasLabel_false_head _ _ 'M' 'C' rfl rfl rfl
  have hErr : ∀ v : String, hasLabel "Matcher: " ("Error: " ++ v) = false :=
    fun v => hasLabel_false_head _ _ 'M' 'E' rfl rfl rfl
  simp only [playwrightContextElements]
  rcases f.metadata.testPath with _ | tp <;>
    rcases f.metadata.errorSnippets with _ | (_ | ⟨s, ss⟩) <;>
      simp [List.countP_append, List.countP_cons, countP_if, countP_replicate,
        hasLabel_append_self, hTest, hProj, hSuite, hLoc, hSel, hExp, hAct,
        hTim, hCode, hErr]

/-- The Playwright context builder pushes a `Timeout: ` fragment exactly
`repeatCount (effectiveWeight config.timeouts)` times when a positive
timeout is present, and never otherwise. -/
theorem countP_playwright_timeout (f : TestFailure)
    (config : PlaywrightEmbeddingConfig) :
    (playwrightContextElements f config).countP (hasLabel "Timeout: ")
      = if natTruthy f.metadata.timeoutMs
        then repeatCount (effectiveWeight config.timeouts) else 0 := by
  have hTest : ∀ v : String, hasLabel "Timeout: " ("Test: " ++ v) = false :=
    fun v => hasLabel_false_head2 _ _ 'T' 'i' 'T' 'e' rfl rfl rfl rfl rfl
  have hProj : ∀ v : String, hasLabel "Timeout: " ("Project: " ++ v) = false :=
    fun v => hasLabel_false_head _ _ 'T' 'P' rfl rfl rfl
  have hSuite : ∀ v : String, hasLabel "Timeout: " ("Suite: " ++ v) = false :=
    fun v => hasLabel_false_head _ _ 'T' 'S' rfl rfl rfl
  have hLoc : ∀ a b : String,
      hasLabel "Timeout: " ("Location: " ++ a ++ ":" ++ b) = false :=
    fun a b => hasLabel_false_head _ _ 'T' 'L' rfl rfl rfl
  have hSel : ∀ v : String, hasLabel "Timeout: " ("Selector: " ++ v) = false :=
    fun v => hasLabel_false_head _ _ 'T' 'S' rfl rfl rfl
  have hMatch : ∀ v : String, hasLabel "Timeout: " ("Matcher: " ++ v) = false :=
    fun v => hasLabel_false_head _ _ 'T' 'M' rfl rfl rfl
  have hExp : ∀ v : String,
      hasLabel "Timeout: " ("Expected: \"" ++ v ++ "\"") = false :=
    fun v => hasLabel_false_head _ _ 'T' 'E' rfl rfl rfl
  have hAct : ∀ v : String,
      hasLabel "Timeout: " ("Actual: \"" ++ v ++ "\"") = false :=
    fun v => hasLabel_false_head _ _ 'T' 'A' rfl rfl rfl
  have hCode : ∀ v : String, hasLabel "Timeout: " ("Code:\n" ++ v) = false :=
    fun v => hasLabel_false_head _ _ 'T' 'C' rfl rfl rfl
  have hErr : ∀ v : String, hasLabel "Timeout: " ("Error: " ++ v) = false :=
    fun v => hasLabel_false_head _ _ 'T' 'E' rfl rfl rfl
  simp only [playwrightContextElements]
  rcases f.metadata.testPath with _ | tp <;>
    rcases f.metadata.errorSnippets with _ | (_ | ⟨s, ss⟩) <;>
      simp [List.countP_append, List.countP_cons, countP_if, countP_replicate,
        hasLabel_append_self2, hTest, hProj, hSuite, hLoc, hSel, hMatch, hExp,
        hAct, hCode, hErr]

end Lemmas

/-! ## Claims -/

section Claims

attribute [local semireducible] Rat.add Rat.mul Rat.sub Rat.inv

/-- C8: with zero fetched failures, `detect` returns an empty cluster list
and its trace holds the fetch step only — no extraction, context building,
embedding, clustering or persistence step runs; and `clusterFailures` on an
empty input returns `[]` through its early-return branch, before any
distance computation. -/
theorem claim_C8 :
    (∀ (embedFn : List String → List (List ℚ)) (config : FlakinessDetectiveConfig),
      detect [] embedFn config = ([], [PipelineStep.fetch config.timeWindow.days]))
    ∧ ∀ options : ClusteringOptions, clusterFailures [] options = [] :=
  ⟨fun _ _ => rfl, fun _ => rfl⟩

/-- C7: `extractPatterns` is total by construction, and on an empty error
message with an empty attribute record every heuristic field stays unset:
the output record differs from the input only in `errorSnippets`, which
becomes the empty snippet list. -/
theorem claim_C7 : ∀ i ti tt ts : String,
    extractPatterns
      { id := i, testId := ti, testTitle := tt, errorMessage := ""
        timestamp := ts, metadata := {} }
    = { id := i, testId := ti, testTitle := tt, errorMessage := ""
        timestamp := ts, metadata := { errorSnippets := some [] } } := by
  intro i ti tt ts
  have h : enrichFramework "" (enrichLocation "" {})
      = ({ errorSnippets := some [] } : TestFailureMetadata) := by decide
  show ({ id := i, testId := ti, testTitle := tt, errorMessage := ""
          timestamp := ts,
          metadata := enrichFramework "" (enrichLocation "" {}) } : TestFailure) = _
  rw [h]

/-- C10: `extractPatterns` does not mutate its argument.  In the
object-identity model, the copy `{ ...failure.metadata }` is allocated at a
fresh address and every property assignment targets that copy: the whole
pre-existing heap (in particular the argument's record) is unchanged, and
the enrichment is visible only at the returned address, whose value is
exactly the pure `extractPatterns` result. -/
theorem claim_C10 (heap : List TestFailureMetadata) (i : Nat) (msg : String)
    (_h : i < heap.length) :
    (extractPatternsHeap heap i msg).1.take heap.length = heap
    ∧ ∀ f : TestFailure, f.errorMessage = msg → f.metadata = heap.getD i default →
        (extractPatternsHeap heap i msg).1.getD (extractPatternsHeap heap i msg).2 default
          = (extractPatterns f).metadata := by
  have hstep : (extractPatternsHeap heap i msg).1
      = heap ++ [enrichFramework msg (enrichLocation msg (heap.getD i default))] := by
    show ((heap ++ [heap.getD i default]).set heap.length
        (enrichLocation msg ((heap ++ [heap.getD i default]).getD heap.length default))).set
          heap.length _ = _
    rw [getD_append_len, set_append_len]
    rw [getD_append_len, set_append_len]
  constructor
  · rw [hstep]; exact List.take_left heap _
  · intro f hmsg hmeta
    have haddr : (extractPatternsHeap heap i msg).2 = heap.length := rfl
    rw [hstep, haddr, getD_append_len]
    show _ = enrichFramework f.errorMessage (enrichLocation f.errorMessage f.metadata)
    rw [hmsg, hmeta]

/-- C10 witness: on a concrete two-object heap, the call leaves both
pre-existing objects in place and publishes the enrichment at the fresh
address. -/
theorem claim_C10_witness :
    (0 < heapC10.length
      ∧ (extractPatternsHeap heapC10 0 "E").1.take heapC10.length = heapC10)
    ∧ (extractPatternsHeap heapC10 0 "E").1.getD (extractPatternsHeap heapC10 0 "E").2 default
        = (extractPatterns
            { id := "f", testId := "t", testTitle := "T", errorMessage := "E"
              timestamp := "ts", metadata := heapC10.getD 0 default }).metadata :=
  ⟨⟨by decide, (claim_C10 heapC10 0 "E" (by decide)).1⟩,
    (claim_C10 heapC10 0 "E" (by decide)).2
      { id := "f", testId := "t", testTitle := "T", errorMessage := "E"
        timestamp := "ts", metadata := heapC10.getD 0 default } rfl rfl⟩

/-- C4 counterexample: with an invalid configuration (epsilon = −1 ≤ 0,
minPoints = −5 < 0) and one fetched failure, the run is not aborted and no
failure precedes I/O: the trace begins with the fetch I/O step and proceeds
through extraction, context building, embedding, clustering and persistence
to normal completion. -/
theorem claim_C4_counterexample :
    configC4.clustering.epsilon ≤ 0 ∧ configC4.clustering.minPoints < 0
    ∧ (detect [failureC4] embedC4 configC4).2
      = [PipelineStep.fetch 7, PipelineStep.extract 1,
         PipelineStep.buildContexts ["Test: T\n\nError: E"],
         PipelineStep.embedBatch ["Test: T\n\nError: E"],
         PipelineStep.cluster 1,
         PipelineStep.persist []] :=
  ⟨by decide, by decide, by decide⟩

/-- C4 (amended): the orchestrator performs no configuration validation at
all.  For every configuration — valid or not — `detect` begins with the
fetch I/O step, and whenever the fetch is nonempty it always runs the full
pipeline (extract, build contexts, embed, cluster, persist) to completion
instead of aborting. -/
theorem claim_C4 (fetched : List TestFailure) (embedFn : List String → List (List ℚ))
    (config : FlakinessDetectiveConfig) (hne : fetched ≠ []) :
    (detect fetched embedFn config).2.head?
      = some (PipelineStep.fetch config.timeWindow.days)
    ∧ ∃ contexts embeddedCount,
        (detect fetched embedFn config).2
          = [PipelineStep.fetch config.timeWindow.days,
             PipelineStep.extract fetched.length,
             PipelineStep.buildContexts contexts,
             PipelineStep.embedBatch contexts,
             PipelineStep.cluster embeddedCount,
             PipelineStep.persist (detect fetched embedFn config).1] := by
  have hlen : (fetched.length == 0) = false := by
    simp only [beq_eq_false_iff_ne, ne_eq, List.length_eq_zero]
    exact hne
  constructor
  · rw [detect, hlen]; rfl
  · rw [detect, hlen]
    exact ⟨_, _, rfl⟩

/-- C4 witness: the amended statement at the concrete invalid
configuration. -/
theorem claim_C4_witness :
    (detect [failureC4] embedC4 configC4).2.head?
      = some (PipelineStep.fetch configC4.timeWindow.days) :=
  (claim_C4 [failureC4] embedC4 configC4 (by decide)).1

/-- C5: the Field Extractor is idempotent — applying `extractPatterns`
twice yields exactly the result of applying it once; no field regresses or
is overwritten on the second pass. -/
theorem claim_C5 (f : TestFailure) :
    extractPatterns (extractPatterns f) = extractPatterns f := by
  have h1 : enrichLocation f.errorMessage (enrichFramework f.errorMessage (enrichLocation f.errorMessage f.metadata)) = enrichFramework f.errorMessage (enrichLocation f.errorMessage f.metadata) :=
    enrichLocation_stable f.errorMessage f.metadata _
      (enrichFramework_errorSnippets _ _) (enrichFramework_lineNumber _ _)
      (enrichFramework_filePath _ _)
  calc extractPatterns (extractPatterns f)
      = ({ f with metadata := enrichFramework f.errorMessage (enrichLocation f.errorMessage (enrichFramework f.errorMessage (enrichLocation f.errorMessage f.metadata))) } : TestFailure) := rfl
    _ = ({ f with metadata := enrichFramework f.errorMessage (enrichFramework f.errorMessage (enrichLocation f.errorMessage f.metadata)) } : TestFailure) := by rw [h1]
    _ = ({ f with metadata := enrichFramework f.errorMessage (enrichLocation f.errorMessage f.metadata) } : TestFailure) := by rw [enrichFramework_idem]
    _ = extractPatterns f := rfl

/-- C2 counterexample: the whole-message match yields expected value
`"foo"`, no input attribute is supplied, yet the extractor returns the
snippet-derived quoted argument `"bar"` — the snippet-derived match
overrides the whole-message match, contradicting the claimed precedence. -/
theorem claim_C2_counterexample :
    msgExpected failureC2.errorMessage = some "foo"
    ∧ failureC2.metadata.expectedValue = none
    ∧ (extractPatterns failureC2).metadata.expectedValue = some "bar" :=
  ⟨by decide, rfl, by decide⟩

/-- C2 (amended): an input-supplied (truthy) attribute always wins — it is
never overwritten for any field.  When the input supplies nothing, the file
path, line number and actual value come from the whole-message scan, the
locator and matcher from the last matching assertion snippet, and the
expected value and timeout prefer the last matching snippet capture,
falling back to the whole-message match (so for those two fields the
snippet-derived value, not the whole-message match, has the higher
extraction precedence). -/
theorem claim_C2 (f : TestFailure) :
    ((strTruthy f.metadata.filePath = true →
        (extractPatterns f).metadata.filePath = f.metadata.filePath)
    ∧ (strTruthy f.metadata.lineNumber = true →
        (extractPatterns f).metadata.lineNumber = f.metadata.lineNumber)
    ∧ (f.metadata.errorSnippets.isSome = true →
        (extractPatterns f).metadata.errorSnippets = f.metadata.errorSnippets)
    ∧ (strTruthy f.metadata.locator = true →
        (extractPatterns f).metadata.locator = f.metadata.locator)
    ∧ (strTruthy f.metadata.matcher = true →
        (extractPatterns f).metadata.matcher = f.metadata.matcher)
    ∧ (strTruthy f.metadata.actualValue = true →
        (extractPatterns f).metadata.actualValue = f.metadata.actualValue)
    ∧ (strTruthy f.metadata.expectedValue = true →
        (extractPatterns f).metadata.expectedValue = f.metadata.expectedValue)
    ∧ (natTruthy f.metadata.timeoutMs = true →
        (extractPatterns f).metadata.timeoutMs = f.metadata.timeoutMs))
    ∧ (f.metadata = {} →
        ((extractPatterns f).metadata.filePath
            = (extractFromErrorMessage f.errorMessage).filePath
        ∧ (extractPatterns f).metadata.lineNumber
            = (extractFromErrorMessage f.errorMessage).lineNumber
        ∧ (extractPatterns f).metadata.actualValue = msgActual f.errorMessage
        ∧ (extractPatterns f).metadata.locator
            = lastAssertionCapture snipLocator
                (extractFromErrorMessage f.errorMessage).errorSnippets
        ∧ (extractPatterns f).metadata.matcher
            = lastAssertionCapture snipMatcher
                (extractFromErrorMessage f.errorMessage).errorSnippets
        ∧ (extractPatterns f).metadata.expectedValue
            = orOpt (lastAssertionCapture snipExpected
                (extractFromErrorMessage f.errorMessage).errorSnippets)
                (msgExpected f.errorMessage)
        ∧ (extractPatterns f).metadata.timeoutMs
            = orOpt (lastAssertionCapture snipTimeout
                (extractFromErrorMessage f.errorMessage).errorSnippets)
                (msgTimeout f.errorMessage))) := by
  have hmeta : (extractPatterns f).metadata
      = enrichFramework f.errorMessage (enrichLocation f.errorMessage f.metadata) := rfl
  have hl : (enrichLocation f.errorMessage f.metadata).locator = f.metadata.locator :=
    enrichLocation_locator _ _
  have hm : (enrichLocation f.errorMessage f.metadata).matcher = f.metadata.matcher :=
    enrichLocation_matcher _ _
  have hav : (enrichLocation f.errorMessage f.metadata).actualValue
      = f.metadata.actualValue := enrichLocation_actualValue _ _
  have hev : (enrichLocation f.errorMessage f.metadata).expectedValue
      = f.metadata.expectedValue := enrichLocation_expectedValue _ _
  have htm : (enrichLocation f.errorMessage f.metadata).timeoutMs
      = f.metadata.timeoutMs := enrichLocation_timeoutMs _ _
  refine ⟨⟨?_, ?_, ?_, ?_, ?_, ?_, ?_, ?_⟩, ?_⟩
  · intro h
    rw [hmeta, enrichFramework_filePath]
    exact enrichLocation_filePath_truthy _ _ h
  · intro h
    rw [hmeta, enrichFramework_lineNumber]
    exact enrichLocation_lineNumber_truthy _ _ h
  · intro h
    rw [hmeta, enrichFramework_errorSnippets]
    exact enrichLocation_errorSnippets_isSome _ _ h
  · intro h
    rw [hmeta, enrichFramework_locator_truthy _ _ (by rw [hl]; exact h), hl]
  · intro h
    rw [hmeta, enrichFramework_matcher_truthy _ _ (by rw [hm]; exact h), hm]
  · intro h
    rw [hmeta, enrichFramework_actualValue_truthy _ _ (by rw [hav]; exact h), hav]
  · intro h
    rw [hmeta, enrichFramework_expectedValue_truthy _ _ (by rw [hev]; exact h), hev]
  · intro h
    rw [hmeta, enrichFramework_timeoutMs_truthy _ _ (by rw [htm]; exact h), htm]
  · intro hm0
    have hn : enrichLocation f.errorMessage f.metadata
        = { errorSnippets := some (extractFromErrorMessage f.errorMessage).errorSnippets
            lineNumber := (extractFromErrorMessage f.errorMessage).lineNumber
            filePath := (extractFromErrorMessage f.errorMessage).filePath } := by
      rw [hm0, enrichLocation, if_neg (by decide)]
      rfl
    refine ⟨?_, ?_, ?_, ?_, ?_, ?_, ?_⟩
    · rw [hmeta, enrichFramework_filePath, hn]
    · rw [hmeta, enrichFramework_lineNumber, hn]
    · rw [hmeta, hn, enrichFramework_actualValue_of_none _ _ rfl,
        extractFrameworkDetails_actualValue]
    · rw [hmeta, hn, enrichFramework_locator_of_none _ _ rfl,
        extractFrameworkDetails_locator]
      rfl
    · rw [hmeta, hn, enrichFramework_matcher_of_none _ _ rfl,
        extractFrameworkDetails_matcher]
      rfl
    · rw [hmeta, hn, enrichFramework_expectedValue_of_none _ _ rfl,
        extractFrameworkDetails_expectedValue]
      rfl
    · rw [hmeta, hn, enrichFramework_timeoutMs_of_none _ _ rfl rfl,
        extractFrameworkDetails_timeoutMs]
      rfl

/-- C2 witness: the amended claim applied to concrete failures — an
input-supplied locator survives extraction, and on an empty attribute
record the expected value resolves to the snippet-then-message
precedence. -/
theorem claim_C2_witness :
    (extractPatterns failureC2In).metadata.locator = failureC2In.metadata.locator
    ∧ (extractPatterns failureC2).metadata.expectedValue
        = orOpt (lastAssertionCapture snipExpected
            (extractFromErrorMessage failureC2.errorMessage).errorSnippets)
            (msgExpected failureC2.errorMessage) := by
  constructor
  · obtain ⟨⟨_, _, _, h4, _⟩, _⟩ := claim_C2 failureC2In
    exact h4 (by decide)
  · obtain ⟨_, h9⟩ := claim_C2 failureC2
    exact (h9 (by decide)).2.2.2.2.2.1

/-- C1 counterexample: in a 3-member cluster where one member lists the
snippet `"s"` twice, `"s"` is retained as a consensus code snippet although
only one member (fewer than `ceil(0.5 * 3) = 2`, i.e. `2 * 1 < 3`) carries
it: occurrences are counted over the concatenated snippet lists, not over
members. -/
theorem claim_C1_counterexample :
    ((clusterFailures efsC1 optsC1).map fun c => (c.count, c.commonCodeSnippets, c.failureIds))
      = [(3, ["s"], ["1", "2", "3"])]
    ∧ (efsC1.countP fun f => decide ("s" ∈ f.metadata.errorSnippets.getD [])) = 1
    ∧ ¬ (3 ≤ 2 * 1) :=
  ⟨by decide, by decide, by decide⟩

/-- C1 (amended): for every cluster produced by `clusterFailures` there is
a member list realizing its count and failure ids such that every retained
consensus value occurs in at least `ceil(0.5 * count)` members for the
single-valued categories (file paths, line numbers, locators, matchers,
timeouts) — stated as `count ≤ 2 * occurrences` — while for code snippets
the same bound holds but for the number of occurrences of the value in the
members' concatenated snippet lists (a member may contribute several). -/
theorem claim_C1 (embeddedFailures : List EmbeddedFailure) (options : ClusteringOptions)
    (c : FailureCluster) (hc : c ∈ clusterFailures embeddedFailures options) :
    ∃ members : List EmbeddedFailure,
      c.count = members.length
      ∧ c.failureIds = members.map (·.id)
      ∧ (∀ v ∈ c.commonFilePaths,
          c.count ≤ 2 * members.countP fun f => f.metadata.filePath == some v)
      ∧ (∀ v ∈ c.commonLineNumbers,
          c.count ≤ 2 * members.countP fun f => f.metadata.lineNumber == some v)
      ∧ (∀ v ∈ c.commonLocators,
          c.count ≤ 2 * members.countP fun f => f.metadata.locator == some v)
      ∧ (∀ v ∈ c.commonMatchers,
          c.count ≤ 2 * members.countP fun f => f.metadata.matcher == some v)
      ∧ (∀ u ∈ c.commonTimeouts,
          c.count ≤ 2 * members.countP fun f => f.metadata.timeoutMs == some u)
      ∧ (∀ v ∈ c.commonCodeSnippets,
          c.count ≤ 2 * (members.flatMap fun f => f.metadata.errorSnippets.getD []).countP
            (· == v)) := by
  obtain ⟨idxs, clusterId, _, hEq⟩ := mem_clusterFailures_elim _ _ _ hc
  subst hEq
  refine ⟨idxs.map fun idx => embeddedFailures.getD idx default, rfl, rfl, ?_, ?_, ?_, ?_,
    ?_, ?_⟩
  · intro v hv
    have hproj : (buildCluster embeddedFailures dateNowIso idxs clusterId).commonFilePaths
        = findCommonElements id
            ((idxs.map fun idx => embeddedFailures.getD idx default).filterMap
              fun f => filterBoolStr f.metadata.filePath)
            (((idxs.map fun idx => embeddedFailures.getD idx default).length : ℚ) * (1 / 2)) :=
      rfl
    rw [hproj] at hv
    have h1 := le_keyCountP_of_mem_findCommonElements id _ _ v hv
    simp only [id_eq] at h1
    rw [keyCountP_id, countP_filterMap_some] at h1
    rw [show (buildCluster embeddedFailures dateNowIso idxs clusterId).count
        = (idxs.map fun idx => embeddedFailures.getD idx default).length from rfl]
    apply half_le_of_mem _ _ _ h1
    apply List.countP_mono_left
    intro f _ hf
    exact filterBoolStr_beq_some hf
  · intro v hv
    have hproj : (buildCluster embeddedFailures dateNowIso idxs clusterId).commonLineNumbers
        = findCommonElements id
            ((idxs.map fun idx => embeddedFailures.getD idx default).filterMap
              fun f => filterBoolStr f.metadata.lineNumber)
            (((idxs.map fun idx => embeddedFailures.getD idx default).length : ℚ) * (1 / 2)) :=
      rfl
    rw [hproj] at hv
    have h1 := le_keyCountP_of_mem_findCommonElements id _ _ v hv
    simp only [id_eq] at h1
    rw [keyCountP_id, countP_filterMap_some] at h1
    rw [show (buildCluster embeddedFailures dateNowIso idxs clusterId).count
        = (idxs.map fun idx => embeddedFailures.getD idx default).length from rfl]
    apply half_le_of_mem _ _ _ h1
    apply List.countP_mono_left
    intro f _ hf
    exact filterBoolStr_beq_some hf
  · intro v hv
    have hproj : (buildCluster embeddedFailures dateNowIso idxs clusterId).commonLocators
        = findCommonElements id
            ((idxs.map fun idx => embeddedFailures.getD idx default).filterMap
              fun f => filterBoolStr f.metadata.locator)
            (((idxs.map fun idx => embeddedFailures.getD idx default).length : ℚ) * (1 / 2)) :=
      rfl
    rw [hproj] at hv
    have h1 := le_keyCountP_of_mem_findCommonElements id _ _ v hv
    simp only [id_eq] at h1
    rw [keyCountP_id, countP_filterMap_some] at h1
    rw [show (buildCluster embeddedFailures dateNowIso idxs clusterId).count
        = (idxs.map fun idx => embeddedFailures.getD idx default).length from rfl]
    apply half_le_of_mem _ _ _ h1
    apply List.countP_mono_left
    intro f _ hf
    exact filterBoolStr_beq_some hf
  · intro v hv
    have hproj : (buildCluster embeddedFailures dateNowIso idxs clusterId).commonMatchers
        = findCommonElements id
            ((idxs.map fun idx => embeddedFailures.getD idx default).filterMap
              fun f => filterBoolStr f.metadata.matcher)
            (((idxs.map fun idx => embeddedFailures.getD idx default).length : ℚ) * (1 / 2)) :=
      rfl
    rw [hproj] at hv
    have h1 := le_keyCountP_of_mem_findCommonElements id _ _ v hv
    simp only [id_eq] at h1
    rw [keyCountP_id, countP_filterMap_some] at h1
    rw [show (buildCluster embeddedFailures dateNowIso idxs clusterId).count
        = (idxs.map fun idx => embeddedFailures.getD idx default).length from rfl]
    apply half_le_of_mem _ _ _ h1
    apply List.countP_mono_left
    intro f _ hf
    exact filterBoolStr_beq_some hf
  · intro u hu
    have hproj : (buildCluster embeddedFailures dateNowIso idxs clusterId).commonTimeouts
        = findCommonElements natToKey
            ((idxs.map fun idx => embeddedFailures.getD idx default).filterMap
              fun f => match f.metadata.timeoutMs with
                | some t => if 0 < t then some t else none
                | none => none)
            (((idxs.map fun idx => embeddedFailures.getD idx default).length : ℚ) * (1 / 2)) :=
      rfl
    rw [hproj] at hu
    have h1 := le_keyCountP_of_mem_findCommonElements natToKey _ _ u hu
    rw [keyCountP_natToKey, countP_filterMap_some] at h1
    rw [show (buildCluster embeddedFailures dateNowIso idxs clusterId).count
        = (idxs.map fun idx => embeddedFailures.getD idx default).length from rfl]
    apply half_le_of_mem _ _ _ h1
    apply List.countP_mono_left
    intro f _ hf
    exact timeoutPos_beq_some hf
  · intro v hv
    have hproj : (buildCluster embeddedFailures dateNowIso idxs clusterId).commonCodeSnippets
        = findCommonElements id
            ((idxs.map fun idx => embeddedFailures.getD idx default).flatMap
              fun f => f.metadata.errorSnippets.getD [])
            (((idxs.map fun idx => embeddedFailures.getD idx default).length : ℚ) * (1 / 2)) :=
      rfl
    rw [hproj] at hv
    have h1 := le_keyCountP_of_mem_findCommonElements id _ _ v hv
    simp only [id_eq] at h1
    rw [keyCountP_id] at h1
    rw [show (buildCluster embeddedFailures dateNowIso idxs clusterId).count
        = (idxs.map fun idx => embeddedFailures.getD idx default).length from rfl]
    exact half_le_of_mem _ _ _ h1 (Nat.le_refl _)

/-- C1 witness: the amended claim at the concrete three-member cluster. -/
theorem claim_C1_witness :
    ∃ members : List EmbeddedFailure,
      ((clusterFailures efsC1 optsC1).headD default).count = members.length
      ∧ ((clusterFailures efsC1 optsC1).headD default).failureIds = members.map (·.id)
      ∧ (∀ v ∈ ((clusterFailures efsC1 optsC1).headD default).commonFilePaths,
          ((clusterFailures efsC1 optsC1).headD default).count
            ≤ 2 * members.countP fun f => f.metadata.filePath == some v)
      ∧ (∀ v ∈ ((clusterFailures efsC1 optsC1).headD default).commonLineNumbers,
          ((clusterFailures efsC1 optsC1).headD default).count
            ≤ 2 * members.countP fun f => f.metadata.lineNumber == some v)
      ∧ (∀ v ∈ ((clusterFailures efsC1 optsC1).headD default).commonLocators,
          ((clusterFailures efsC1 optsC1).headD default).count
            ≤ 2 * members.countP fun f => f.metadata.locator == some v)
      ∧ (∀ v ∈ ((clusterFailures efsC1 optsC1).headD default).commonMatchers,
          ((clusterFailures efsC1 optsC1).headD default).count
            ≤ 2 * members.countP fun f => f.metadata.matcher == some v)
      ∧ (∀ u ∈ ((clusterFailures efsC1 optsC1).headD default).commonTimeouts,
          ((clusterFailures efsC1 optsC1).headD default).count
            ≤ 2 * members.countP fun f => f.metadata.timeoutMs == some u)
      ∧ (∀ v ∈ ((clusterFailures efsC1 optsC1).headD default).commonCodeSnippets,
          ((clusterFailures efsC1 optsC1).headD default).count
            ≤ 2 * (members.flatMap fun f => f.metadata.errorSnippets.getD []).countP
              (· == v)) :=
  claim_C1 efsC1 optsC1 ((clusterFailures efsC1 optsC1).headD default) (by decide)

/-- C3 counterexample: a 4-member cluster whose members carry the line
numbers `"10", "10", "5", "5"` (first-seen order `["10", "5"]`) yields the
consensus list `["5", "10"]`: canonical numeric string keys are enumerated
in ascending numeric order by the JavaScript object holding the counts, not
in first-seen order. -/
theorem claim_C3_counterexample :
    ((clusterFailures efsC3 optsC3).map fun c => c.commonLineNumbers) = [["5", "10"]]
    ∧ firstSeenByKey id (efsC3.filterMap fun f => filterBoolStr f.metadata.lineNumber)
        = ["10", "5"]
    ∧ (["5", "10"] : List String) ≠ ["10", "5"] :=
  ⟨by decide, by decide, by decide⟩

/-- C3 (amended): a consensus list produced by `findCommonElements` lists
the retained values whose string key is a canonical array-index numeral
(digit-string line numbers, numeric timeouts) first, in ascending numeric
order, followed by the remaining retained values in first-seen order —
first-seen order holds for every value only when no retained key is such a
numeral. -/
theorem claim_C3 (toKey : α → String) (elements : List α) (thresholdCount : ℚ) :
    findCommonElements toKey elements thresholdCount
      = (sortValByKeyNat toKey ((firstSeenByKey toKey elements).filter
            fun v => isArrayIndexKey (toKey v))).filter
          (fun v => decide (thresholdCount ≤ (keyCountP toKey (toKey v) elements : ℚ)))
        ++ (((firstSeenByKey toKey elements).filter
            fun v => !isArrayIndexKey (toKey v)).filter
          fun v => decide (thresholdCount ≤ (keyCountP toKey (toKey v) elements : ℚ))) :=
  findCommonElements_spec toKey elements thresholdCount

/-- C6: every output cluster of `clusterFailures` has `count` equal to the
length of its `failureIds` and at least `minClusterSize`; and the number of
output clusters equals the number of DBSCAN groups of size at least
`minClusterSize` — an undersized group contributes no cluster (neither
emitted nor merged). -/
theorem claim_C6 (embeddedFailures : List EmbeddedFailure) (options : ClusteringOptions) :
    (∀ c ∈ clusterFailures embeddedFailures options,
        c.count = c.failureIds.length ∧ options.minClusterSize ≤ (c.count : Int))
    ∧ (clusterFailures embeddedFailures options).length
        = ((dbscanRun (embeddedFailures.map (·.vector)) options.epsilon
            options.minPoints).filter
            fun g => !((g.length : Int) < options.minClusterSize)).length := by
  constructor
  · intro c hc
    obtain ⟨idxs, i, hsz, hEq⟩ := mem_clusterFailures_elim _ _ _ hc
    subst hEq
    refine ⟨?_, ?_⟩
    · rw [buildCluster_count, buildCluster_failureIds_length]
    · rw [buildCluster_count]
      omega
  · rw [clusterFailures]
    split
    · next hlen =>
      have hnil : embeddedFailures = [] := by simpa using hlen
      subst hnil
      rfl
    · show (sortByCountDesc
          (((dbscanRun (embeddedFailures.map (·.vector)) options.epsilon
            options.minPoints).enum).filterMap fun gi =>
            if ((gi.2.length : Int) < options.minClusterSize) then none
            else some (buildCluster embeddedFailures dateNowIso gi.2 gi.1))).length = _
      generalize dbscanRun (embeddedFailures.map (·.vector)) options.epsilon
        options.minPoints = G
      rw [length_sortByCountDesc, List.enum_eq_enumFrom]
      exact length_filterMap_sizeFilter options.minClusterSize
        (fun i g => buildCluster embeddedFailures dateNowIso g i) G 0

/-- C6 witness: the concrete three-member cluster plus an outlier. -/
theorem claim_C6_witness :
    (((clusterFailures efsC6 optsC6).headD default).count
        = ((clusterFailures efsC6 optsC6).headD default).failureIds.length
      ∧ optsC6.minClusterSize ≤ (((clusterFailures efsC6 optsC6).headD default).count : Int))
    ∧ (clusterFailures efsC6 optsC6).length
        = ((dbscanRun (efsC6.map (·.vector)) optsC6.epsilon optsC6.minPoints).filter
            fun g => !((g.length : Int) < optsC6.minClusterSize)).length :=
  ⟨(claim_C6 efsC6 optsC6).1 ((clusterFailures efsC6 optsC6).headD default) (by decide),
    (claim_C6 efsC6 optsC6).2⟩

/-- C9: for every failure and weight profile, the Playwright context builder
emits each weighted feature's label fragment (`Selector: `, `Matcher: `,
`Timeout: `) exactly `max(1, round(weight))` times when the feature's data
is present — with a feature missing from the profile defaulting to weight
`1.0`, hence one emission — and emits no fragment at all for a weighted
feature whose underlying data is absent. -/
theorem claim_C9 (failure : TestFailure) (config : PlaywrightEmbeddingConfig) :
    ((playwrightContextElements failure config).countP (hasLabel "Selector: ")
       = if strTruthy failure.metadata.selector || strTruthy failure.metadata.locator
         then specRepeatCount config.selectors else 0)
    ∧ ((playwrightContextElements failure config).countP (hasLabel "Matcher: ")
       = if strTruthy failure.metadata.matcher
         then specRepeatCount config.assertions else 0)
    ∧ ((playwrightContextElements failure config).countP (hasLabel "Timeout: ")
       = if natTruthy failure.metadata.timeoutMs
         then specRepeatCount config.timeouts else 0)
    ∧ specRepeatCount none = 1 := by
  refine ⟨?_, ?_, ?_, rfl⟩
  · rw [countP_playwright_selector, repeatCount_effectiveWeight]
  · rw [countP_playwright_matcher, repeatCount_effectiveWeight]
  · rw [countP_playwright_timeout, repeatCount_effectiveWeight]

end Claims

end FlakinessDetective
